import Mathlib

/-
Verification of the distaff zk-VM core against its specification.

The development shallowly embeds the four Rust source files:
  - src/stark/trace/stack.rs          (trace builder for the user stack)
  - src/stark/constraints/constraint_poly.rs
  - src/stark/constraints/decoder2/flow_ops.rs
  - src/processor/tests.rs            (end-to-end execute and verify scenarios)

Machine integers and field elements are modelled as ZMod over the prime
moduli used by the library field primitives; mutable trace buffers are
modelled as lists of total functions from row index to field element, and
failures (Rust assert panics) as Except String values.
-/

instance {ε α : Type} [DecidableEq ε] [DecidableEq α] : DecidableEq (Except ε α) := fun x y =>
  match x, y with
  | .error a, .error b =>
    if h : a = b then .isTrue (by rw [h]) else .isFalse (by simp [h])
  | .error _, .ok _ => .isFalse (fun hh => Except.noConfusion hh)
  | .ok _, .error _ => .isFalse (fun hh => Except.noConfusion hh)
  | .ok a, .ok b =>
    if h : a = b then .isTrue (by rw [h]) else .isFalse (by simp [h])

-- ================================================================================================
-- FIELD
-- ================================================================================================

/-- Modulus of the 128-bit prime field used by the trace builder and the
decoder constraints: 2 to the 128 minus 45 times 2 to the 40 plus 1.
Modelled from the spec: the field primitives are given library contracts
(spec section 3, a prime field with p close to 2 to the 128). -/
def P128 : Nat := 340282366920938463463374557953744961537

/-- Field elements for the trace builder and flow constraints. -/
abbrev F : Type := ZMod P128

/-- Modulus of the 64-bit prime field used by the constraint polynomial
code (its coefficient vectors are Vec of u64).  Modelled from the spec:
the field primitives are given library contracts. -/
def Q64 : Nat := 18446743794536677377

/-- Field elements for the constraint polynomial. -/
abbrev F64 : Type := ZMod Q64

-- ================================================================================================
-- CONSTANTS (crate-level constants referenced by stack.rs; their declarations
-- live outside the provided sources)
-- ================================================================================================

/-- Modelled from the spec: AUX_WIDTH, the number of auxiliary stack
columns (spec section 3; the unit tests of stack.rs read exactly two
auxiliary registers). -/
def AUX_WIDTH : Nat := 2

/-- Modelled from the spec: MIN_STACK_DEPTH; the unit tests of stack.rs
allocate MIN_USER_STACK_DEPTH = 8 user registers, so with AUX_WIDTH = 2
the total is 10. -/
def MIN_STACK_DEPTH : Nat := 10

/-- Modelled from the spec: MAX_STACK_DEPTH, the total column budget for
the stack region (spec section 3: user depth is bounded by
MAX_STACK_DEPTH minus AUX_WIDTH). -/
def MAX_STACK_DEPTH : Nat := 32

/-- Modelled from the spec: HASH_STATE_WIDTH, the sponge state width used
by HASHR (spec section 4.1: one round applied to the top 6 stack cells). -/
def HASH_STATE_WIDTH : Nat := 6

def MIN_USER_STACK_DEPTH : Nat := MIN_STACK_DEPTH - AUX_WIDTH

def MAX_USER_STACK_DEPTH : Nat := MAX_STACK_DEPTH - AUX_WIDTH

-- ================================================================================================
-- OPCODES (crate::processor::opcodes; the opcode table lives outside the
-- provided sources)
-- ================================================================================================

namespace opcodes

/-- Modelled from the spec: each mnemonic has a fixed small-integer
identity (spec section 6).  The concrete numeric assignment is not visible
in the provided sources; the claims under verification depend only on the
identities being distinct bytes, so distinct small integers are assigned
in declaration order of stack.rs. -/
def NOOP : Nat := 0
def BEGIN : Nat := 1
def ASSERT : Nat := 2
def PUSH : Nat := 3
def READ : Nat := 4
def READ2 : Nat := 5
def DUP : Nat := 6
def DUP2 : Nat := 7
def DUP4 : Nat := 8
def PAD2 : Nat := 9
def DROP : Nat := 10
def DROP4 : Nat := 11
def SWAP : Nat := 12
def SWAP2 : Nat := 13
def SWAP4 : Nat := 14
def ROLL4 : Nat := 15
def ROLL8 : Nat := 16
def CHOOSE : Nat := 17
def CHOOSE2 : Nat := 18
def ADD : Nat := 19
def MUL : Nat := 20
def INV : Nat := 21
def NEG : Nat := 22
def NOT : Nat := 23
def EQ : Nat := 24
def CMP : Nat := 25
def HASHR : Nat := 26

end opcodes

-- ================================================================================================
-- TRACE CELL MACHINERY
-- A register (column) is a total function from row index to field element;
-- filled_vector allocates zero-initialized columns, so the default value
-- beyond any written cell is zero.
-- ================================================================================================

/-- One trace column: row index to value. -/
def Col : Type := Nat → F

/-- A zero-initialized column (filled_vector with T::ZERO). -/
def zeroCol : Col := fun _ => 0

/-- Read cell (register c, row r); out-of-range registers read as zero. -/
def getReg (regs : List Col) (c r : Nat) : F :=
  (regs.getD c zeroCol) r

/-- Write value v into cell (register c, row r). -/
def setReg (regs : List Col) (c r : Nat) (v : F) : List Col :=
  regs.set c (fun r2 => if r2 = r then v else (regs.getD c zeroCol) r2)

/-- Apply a sequence of single-cell writes (register, row, value) in order. -/
def writeCells (regs : List Col) (ws : List (Nat × Nat × F)) : List Col :=
  ws.foldl (fun acc w => setReg acc w.1 w.2.1 w.2.2) regs

-- ================================================================================================
-- TRACE BUILDER STATE (stack.rs: struct StackTrace)
-- ================================================================================================

structure StackTrace where
  aux_registers : List Col
  user_registers : List Col
  secret_inputs_a : List F
  secret_inputs_b : List F
  max_depth : Nat
  depth : Nat

def msgUnderflow : String := "stack underflow"

def msgOverflow : String := "stack overflow"

def msgAssertFailed : String := "ASSERT failed"

def msgNoSecretInputs : String := "ran out of secret inputs"

def msgChooseNonBinary : String := "cannot CHOOSE on a non-binary condition"

def msgNotNonBinary : String := "cannot compute NOT of a non-binary value"

def msgCmpNonBinary : String := "expected binary input"

def msgDivByZero : String := "multiplicative inverse of ZERO is undefined"

def msgUnsupported : String := "operation is not supported"

def msgFuel : String := "trace builder loop did not terminate"

def msgExtraSecretInputs : String := "not all secret inputs have been consumed"

def msgProgramTooShort : String := "program length must be greater than 1"

def msgProgramPow2 : String := "program length must be a power of 2"

def msgProgramBegin : String := "first operation of a program must be BEGIN"

def msgProgramNoop : String := "last operation of a program must be NOOP"

def msgExtensionPow2 : String := "trace extension factor must be a power of 2"

namespace StackTrace

def getUser (st : StackTrace) (c r : Nat) : F :=
  getReg st.user_registers c r

def setUser (st : StackTrace) (c r : Nat) (v : F) : StackTrace :=
  { st with user_registers := setReg st.user_registers c r v }

def setAux (st : StackTrace) (c r : Nat) (v : F) : StackTrace :=
  { st with aux_registers := setReg st.aux_registers c r v }

/-- stack.rs copy_state: copy registers start..depth from row step to row step+1. -/
def copy_state (st : StackTrace) (step start : Nat) : StackTrace :=
  let regs := writeCells st.user_registers
    ((List.range' start (st.depth - start)).map
      (fun i => (i, step + 1, getReg st.user_registers i step)))
  { st with user_registers := regs }

/-- stack.rs shift_left: move registers start..depth left by pos_count into
row step+1, zero the shifted-in slots, reduce depth.  The underflow assert
becomes an error value. -/
def shift_left (st : StackTrace) (step start pos_count : Nat) : Except String StackTrace :=
  if st.depth < pos_count then .error msgUnderflow else
  let regs := writeCells st.user_registers
    (((List.range' start (st.depth - start)).map
        (fun i => (i - pos_count, step + 1, getReg st.user_registers i step))) ++
      ((List.range' (st.depth - pos_count) pos_count).map
        (fun i => (i, step + 1, (0 : F)))))
  .ok { st with user_registers := regs, depth := st.depth - pos_count }

/-- stack.rs shift_right: increase depth (overflow assert becomes an error),
bump max_depth and grow zero-filled registers on demand, move registers
start..old_depth right by pos_count into row step+1. -/
def shift_right (st : StackTrace) (step start pos_count : Nat) : Except String StackTrace :=
  let depth2 := st.depth + pos_count
  if MAX_USER_STACK_DEPTH < depth2 then .error msgOverflow else
  let max2 := if st.max_depth < depth2 then st.max_depth + pos_count else st.max_depth
  let regs := if st.user_registers.length < max2
    then st.user_registers ++ List.replicate (max2 - st.user_registers.length) zeroCol
    else st.user_registers
  let regs2 := writeCells regs
    ((List.range' start (st.depth - start)).map
      (fun i => (i + pos_count, step + 1, getReg st.user_registers i step)))
  .ok { st with user_registers := regs2, depth := depth2, max_depth := max2 }

def noop (st : StackTrace) (step : Nat) : StackTrace :=
  st.copy_state step 0

def assert (st : StackTrace) (step : Nat) : Except String StackTrace :=
  if st.depth < 1 then .error msgUnderflow else
  if st.getUser 0 step = 1 then st.shift_left step 1 1 else .error msgAssertFailed

def push (st : StackTrace) (step : Nat) (value : F) : Except String StackTrace :=
  match st.shift_right step 0 1 with
  | .error e => .error e
  | .ok st1 => .ok (st1.setUser 0 (step + 1) value)

def read (st : StackTrace) (step : Nat) : Except String StackTrace :=
  if st.secret_inputs_a.length = 0 then .error msgNoSecretInputs else
  match st.shift_right step 0 1 with
  | .error e => .error e
  | .ok st1 =>
    let value := (st.secret_inputs_a.getLast?).getD 0
    let st2 := st1.setUser 0 (step + 1) value
    .ok { st2 with secret_inputs_a := st.secret_inputs_a.dropLast }

def read2 (st : StackTrace) (step : Nat) : Except String StackTrace :=
  if st.secret_inputs_a.length = 0 then .error msgNoSecretInputs else
  if st.secret_inputs_b.length = 0 then .error msgNoSecretInputs else
  match st.shift_right step 0 2 with
  | .error e => .error e
  | .ok st1 =>
    let value_a := (st.secret_inputs_a.getLast?).getD 0
    let value_b := (st.secret_inputs_b.getLast?).getD 0
    let st2 := (st1.setUser 0 (step + 1) value_b).setUser 1 (step + 1) value_a
    .ok { st2 with secret_inputs_a := st.secret_inputs_a.dropLast,
                   secret_inputs_b := st.secret_inputs_b.dropLast }

def dup (st : StackTrace) (step : Nat) : Except String StackTrace :=
  if st.depth < 1 then .error msgUnderflow else
  match st.shift_right step 0 1 with
  | .error e => .error e
  | .ok st1 => .ok (st1.setUser 0 (step + 1) (st.getUser 0 step))

def dup2 (st : StackTrace) (step : Nat) : Except String StackTrace :=
  if st.depth < 2 then .error msgUnderflow else
  match st.shift_right step 0 2 with
  | .error e => .error e
  | .ok st1 => .ok ((st1.setUser 0 (step + 1) (st.getUser 0 step)).setUser 1 (step + 1)
      (st.getUser 1 step))

def dup4 (st : StackTrace) (step : Nat) : Except String StackTrace :=
  if st.depth < 4 then .error msgUnderflow else
  match st.shift_right step 0 4 with
  | .error e => .error e
  | .ok st1 => .ok ((((st1.setUser 0 (step + 1) (st.getUser 0 step)).setUser 1 (step + 1)
      (st.getUser 1 step)).setUser 2 (step + 1) (st.getUser 2 step)).setUser 3 (step + 1)
      (st.getUser 3 step))

def pad2 (st : StackTrace) (step : Nat) : Except String StackTrace :=
  match st.shift_right step 0 2 with
  | .error e => .error e
  | .ok st1 => .ok ((st1.setUser 0 (step + 1) 0).setUser 1 (step + 1) 0)

def drop (st : StackTrace) (step : Nat) : Except String StackTrace :=
  if st.depth < 1 then .error msgUnderflow else
  st.shift_left step 1 1

def drop4 (st : StackTrace) (step : Nat) : Except String StackTrace :=
  if st.depth < 4 then .error msgUnderflow else
  st.shift_left step 4 4

def swap (st : StackTrace) (step : Nat) : Except String StackTrace :=
  if st.depth < 2 then .error msgUnderflow else
  .ok (((st.setUser 0 (step + 1) (st.getUser 1 step)).setUser 1 (step + 1)
      (st.getUser 0 step)).copy_state step 2)

def swap2 (st : StackTrace) (step : Nat) : Except String StackTrace :=
  if st.depth < 4 then .error msgUnderflow else
  .ok (((((st.setUser 0 (step + 1) (st.getUser 2 step)).setUser 1 (step + 1)
      (st.getUser 3 step)).setUser 2 (step + 1) (st.getUser 0 step)).setUser 3 (step + 1)
      (st.getUser 1 step)).copy_state step 4)

def swap4 (st : StackTrace) (step : Nat) : Except String StackTrace :=
  if st.depth < 8 then .error msgUnderflow else
  .ok (((((((((st.setUser 0 (step + 1) (st.getUser 4 step)).setUser 1 (step + 1)
      (st.getUser 5 step)).setUser 2 (step + 1) (st.getUser 6 step)).setUser 3 (step + 1)
      (st.getUser 7 step)).setUser 4 (step + 1) (st.getUser 0 step)).setUser 5 (step + 1)
      (st.getUser 1 step)).setUser 6 (step + 1) (st.getUser 2 step)).setUser 7 (step + 1)
      (st.getUser 3 step)).copy_state step 8)

def roll4 (st : StackTrace) (step : Nat) : Except String StackTrace :=
  if st.depth < 4 then .error msgUnderflow else
  .ok (((((st.setUser 0 (step + 1) (st.getUser 3 step)).setUser 1 (step + 1)
      (st.getUser 0 step)).setUser 2 (step + 1) (st.getUser 1 step)).setUser 3 (step + 1)
      (st.getUser 2 step)).copy_state step 4)

def roll8 (st : StackTrace) (step : Nat) : Except String StackTrace :=
  if st.depth < 8 then .error msgUnderflow else
  .ok (((((((((st.setUser 0 (step + 1) (st.getUser 7 step)).setUser 1 (step + 1)
      (st.getUser 0 step)).setUser 2 (step + 1) (st.getUser 1 step)).setUser 3 (step + 1)
      (st.getUser 2 step)).setUser 4 (step + 1) (st.getUser 3 step)).setUser 5 (step + 1)
      (st.getUser 4 step)).setUser 6 (step + 1) (st.getUser 5 step)).setUser 7 (step + 1)
      (st.getUser 6 step)).copy_state step 8)

def choose (st : StackTrace) (step : Nat) : Except String StackTrace :=
  if st.depth < 3 then .error msgUnderflow else
  let condition := st.getUser 2 step
  if condition = 1 then (st.setUser 0 (step + 1) (st.getUser 0 step)).shift_left step 3 2
  else if condition = 0 then (st.setUser 0 (step + 1) (st.getUser 1 step)).shift_left step 3 2
  else .error msgChooseNonBinary

def choose2 (st : StackTrace) (step : Nat) : Except String StackTrace :=
  if st.depth < 6 then .error msgUnderflow else
  let condition := st.getUser 4 step
  if condition = 1 then
    ((st.setUser 0 (step + 1) (st.getUser 0 step)).setUser 1 (step + 1)
      (st.getUser 1 step)).shift_left step 6 4
  else if condition = 0 then
    ((st.setUser 0 (step + 1) (st.getUser 2 step)).setUser 1 (step + 1)
      (st.getUser 3 step)).shift_left step 6 4
  else .error msgChooseNonBinary

def add (st : StackTrace) (step : Nat) : Except String StackTrace :=
  if st.depth < 2 then .error msgUnderflow else
  (st.setUser 0 (step + 1) (st.getUser 0 step + st.getUser 1 step)).shift_left step 2 1

def mul (st : StackTrace) (step : Nat) : Except String StackTrace :=
  if st.depth < 2 then .error msgUnderflow else
  (st.setUser 0 (step + 1) (st.getUser 0 step * st.getUser 1 step)).shift_left step 2 1

def inv (st : StackTrace) (step : Nat) : Except String StackTrace :=
  if st.depth < 1 then .error msgUnderflow else
  if st.getUser 0 step = 0 then .error msgDivByZero else
  .ok ((st.setUser 0 (step + 1) (st.getUser 0 step)⁻¹).copy_state step 1)

def neg (st : StackTrace) (step : Nat) : Except String StackTrace :=
  if st.depth < 1 then .error msgUnderflow else
  .ok ((st.setUser 0 (step + 1) (-(st.getUser 0 step))).copy_state step 1)

def not (st : StackTrace) (step : Nat) : Except String StackTrace :=
  if st.depth < 1 then .error msgUnderflow else
  let x := st.getUser 0 step
  if x = 0 ∨ x = 1 then .ok ((st.setUser 0 (step + 1) (1 - x)).copy_state step 1)
  else .error msgNotNonBinary

def eq (st : StackTrace) (step : Nat) : Except String StackTrace :=
  if st.depth < 2 then .error msgUnderflow else
  let x := st.getUser 0 step
  let y := st.getUser 1 step
  if x = y then
    ((st.setAux 0 step 1).setUser 0 (step + 1) 1).shift_left step 2 1
  else
    ((st.setAux 0 step (x - y)⁻¹).setUser 0 (step + 1) 0).shift_left step 2 1

def cmp (st : StackTrace) (step : Nat) : Except String StackTrace :=
  if st.depth < 8 then .error msgUnderflow else
  if st.secret_inputs_a.length = 0 then .error msgNoSecretInputs else
  if st.secret_inputs_b.length = 0 then .error msgNoSecretInputs else
  let a_bit := (st.secret_inputs_a.getLast?).getD 0
  if ¬(a_bit = 0 ∨ a_bit = 1) then .error msgCmpNonBinary else
  let b_bit := (st.secret_inputs_b.getLast?).getD 0
  if ¬(b_bit = 0 ∨ b_bit = 1) then .error msgCmpNonBinary else
  let bit_gt := a_bit * (1 - b_bit)
  let bit_lt := b_bit * (1 - a_bit)
  let gt := st.getUser 2 step
  let lt := st.getUser 3 step
  let not_set := (1 - gt) * (1 - lt)
  let power_of_two := (2 : F) ^ (127 - step % 128)
  let st2 := ((((((st.setUser 0 (step + 1) a_bit).setUser 1 (step + 1) b_bit).setUser 2 (step + 1)
      (gt + bit_gt * not_set)).setUser 3 (step + 1) (lt + bit_lt * not_set)).setUser 4 (step + 1)
      (st.getUser 4 step + a_bit * power_of_two)).setUser 5 (step + 1)
      (st.getUser 5 step + b_bit * power_of_two)).copy_state step 6
  .ok { st2 with secret_inputs_a := st.secret_inputs_a.dropLast,
                 secret_inputs_b := st.secret_inputs_b.dropLast }

end StackTrace

-- ================================================================================================
-- HASHING PRIMITIVES (library contracts; not part of the provided sources)
-- ================================================================================================

/-- Modelled from the spec: one round of the algebraic sponge permutation
(Hasher::apply_round), a given library primitive (spec sections 2 and 3).
Its internal algebra is out of scope for every claim, so a fixed
computable stand-in permutation of the hash state is used. -/
def applyRound (state : List F) (step : Nat) : List F :=
  state.map (fun x => x * x + (step : F) + 1)

/-- Modelled from the spec: the sponge hash of a sequence of field
elements (Accumulator::digest), a given library primitive producing a
fixed-width tuple of 4 lanes (spec section 3).  The internal permutation
is out of scope for every claim, so a fixed computable accumulator is
used. -/
def spongeDigest (xs : List F) : List F :=
  [xs.foldl (fun a x => a * 23 + x + 1) 0, 0, 0, 0]

namespace StackTrace

def hashr (st : StackTrace) (step : Nat) : Except String StackTrace :=
  if st.depth < HASH_STATE_WIDTH then .error msgUnderflow else
  let state := applyRound
    [st.getUser 0 step, st.getUser 1 step, st.getUser 2 step,
     st.getUser 3 step, st.getUser 4 step, st.getUser 5 step] step
  .ok (((((((st.setUser 0 (step + 1) (state.getD 0 0)).setUser 1 (step + 1)
      (state.getD 1 0)).setUser 2 (step + 1) (state.getD 2 0)).setUser 3 (step + 1)
      (state.getD 3 0)).setUser 4 (step + 1) (state.getD 4 0)).setUser 5 (step + 1)
      (state.getD 5 0)).copy_state step HASH_STATE_WIDTH)

end StackTrace

-- ================================================================================================
-- TRACE BUILDER EXECUTION LOOP (stack.rs: fn execute)
-- ================================================================================================

/-- The opcode byte of a program slot (the Rust source casts the field
element to u8, truncating to the low byte). -/
def toOpcode (x : F) : Nat := x.val % 256

/-- One iteration of the execution loop of stack.rs, dispatching on an
already extracted opcode byte: apply the operation at slot i, returning
the updated stack and the next slot index (PUSH consumes the following
slot as its immediate and forces a NOOP cycle there, advancing by two). -/
def stepOpc (opc : Nat) (program : List F) (st : StackTrace) (i : Nat) :
    Except String (StackTrace × Nat) :=
  if opc = opcodes.BEGIN then .ok (st.noop i, i + 1)
  else if opc = opcodes.NOOP then .ok (st.noop i, i + 1)
  else if opc = opcodes.ASSERT then (st.assert i).map (fun s => (s, i + 1))
  else if opc = opcodes.PUSH then
    match st.push i (program.getD (i + 1) 0) with
    | .error e => .error e
    | .ok st1 => .ok ((st1.noop (i + 1)), i + 2)
  else if opc = opcodes.READ then (st.read i).map (fun s => (s, i + 1))
  else if opc = opcodes.READ2 then (st.read2 i).map (fun s => (s, i + 1))
  else if opc = opcodes.DUP then (st.dup i).map (fun s => (s, i + 1))
  else if opc = opcodes.DUP2 then (st.dup2 i).map (fun s => (s, i + 1))
  else if opc = opcodes.DUP4 then (st.dup4 i).map (fun s => (s, i + 1))
  else if opc = opcodes.PAD2 then (st.pad2 i).map (fun s => (s, i + 1))
  else if opc = opcodes.DROP then (st.drop i).map (fun s => (s, i + 1))
  else if opc = opcodes.DROP4 then (st.drop4 i).map (fun s => (s, i + 1))
  else if opc = opcodes.SWAP then (st.swap i).map (fun s => (s, i + 1))
  else if opc = opcodes.SWAP2 then (st.swap2 i).map (fun s => (s, i + 1))
  else if opc = opcodes.SWAP4 then (st.swap4 i).map (fun s => (s, i + 1))
  else if opc = opcodes.ROLL4 then (st.roll4 i).map (fun s => (s, i + 1))
  else if opc = opcodes.ROLL8 then (st.roll8 i).map (fun s => (s, i + 1))
  else if opc = opcodes.CHOOSE then (st.choose i).map (fun s => (s, i + 1))
  else if opc = opcodes.CHOOSE2 then (st.choose2 i).map (fun s => (s, i + 1))
  else if opc = opcodes.ADD then (st.add i).map (fun s => (s, i + 1))
  else if opc = opcodes.MUL then (st.mul i).map (fun s => (s, i + 1))
  else if opc = opcodes.INV then (st.inv i).map (fun s => (s, i + 1))
  else if opc = opcodes.NEG then (st.neg i).map (fun s => (s, i + 1))
  else if opc = opcodes.NOT then (st.not i).map (fun s => (s, i + 1))
  else if opc = opcodes.EQ then (st.eq i).map (fun s => (s, i + 1))
  else if opc = opcodes.CMP then (st.cmp i).map (fun s => (s, i + 1))
  else if opc = opcodes.HASHR then (st.hashr i).map (fun s => (s, i + 1))
  else .error msgUnsupported

/-- One iteration of the execution loop of stack.rs: dispatch on the
opcode byte at slot i. -/
def stepOp (program : List F) (st : StackTrace) (i : Nat) : Except String (StackTrace × Nat) :=
  stepOpc (toOpcode (program.getD i 0)) program st i

/-- The while loop of stack.rs execute, with explicit fuel (each
iteration advances i by at least one, so fuel equal to the trace length
never runs out). -/
def runLoop (program : List F) (tlen : Nat) : Nat → Nat → StackTrace → Except String StackTrace
  | 0, i, st => if i < tlen - 1 then .error msgFuel else .ok st
  | fuel + 1, i, st =>
    if i < tlen - 1 then
      match stepOp program st i with
      | .error e => .error e
      | .ok (st2, i2) => runLoop program tlen fuel i2 st2
    else .ok st

/-- Program inputs (crate::stark::ProgramInputs): public inputs plus two
secret input tapes. -/
structure ProgramInputs where
  public : List F
  secret_a : List F
  secret_b : List F

/-- The initial StackTrace of execute: user registers sized to
max(public inputs, MIN_USER_STACK_DEPTH) with row 0 seeded from the
public inputs, AUX_WIDTH zero registers, and the secret inputs reversed
so that popping yields FIFO order. -/
def initStack (inputs : ProgramInputs) : StackTrace :=
  { aux_registers := List.replicate AUX_WIDTH zeroCol,
    user_registers := (List.range (max inputs.public.length MIN_USER_STACK_DEPTH)).map
      (fun i => fun r => if r = 0 then inputs.public.getD i 0 else 0),
    secret_inputs_a := inputs.secret_a.reverse,
    secret_inputs_b := inputs.secret_b.reverse,
    max_depth := inputs.public.length,
    depth := inputs.public.length }

/-- The body of stack.rs execute after the validation asserts: run the
loop, check that all secret inputs were consumed, truncate the user
registers to max_depth and return aux registers followed by user
registers. -/
def executeMain (program : List F) (inputs : ProgramInputs) : Except String (List Col) :=
  match runLoop program program.length program.length 0 (initStack inputs) with
  | .error e => .error e
  | .ok st =>
    if st.secret_inputs_a.length = 0 ∧ st.secret_inputs_b.length = 0 then
      .ok (st.aux_registers ++ st.user_registers.take st.max_depth)
    else .error msgExtraSecretInputs

/-- Rust usize::is_power_of_two: exactly one bit set. -/
def isPow2 (n : Nat) : Bool := n != 0 && (n &&& (n - 1)) == 0

/-- stack.rs execute: the validation asserts (length greater than 1,
power-of-two length, first opcode BEGIN, last opcode NOOP, power-of-two
extension factor) followed by the execution loop. -/
def execute (program : List F) (inputs : ProgramInputs) (extension_factor : Nat) :
    Except String (List Col) :=
  if ¬(1 < program.length) then .error msgProgramTooShort
  else if ¬(isPow2 program.length = true) then .error msgProgramPow2
  else if ¬(program.getD 0 0 = (opcodes.BEGIN : Nat)) then .error msgProgramBegin
  else if ¬(program.getD (program.length - 1) 0 = (opcodes.NOOP : Nat)) then .error msgProgramNoop
  else if ¬(isPow2 extension_factor = true) then .error msgExtensionPow2
  else executeMain program inputs

/-- The stack depth counter of every state visited by the execution loop
(the depth before each executed operation, and the final depth). -/
def runDepths (program : List F) (tlen : Nat) : Nat → Nat → StackTrace → Except String (List Nat)
  | 0, i, st => if i < tlen - 1 then .error msgFuel else .ok [st.depth]
  | fuel + 1, i, st =>
    if i < tlen - 1 then
      match stepOp program st i with
      | .error e => .error e
      | .ok (st2, i2) => (runDepths program tlen fuel i2 st2).map (st.depth :: ·)
    else .ok [st.depth]

-- ================================================================================================
-- PROCESSOR ENTRY POINTS (processor::execute and processor::verify; only
-- their tests are among the provided sources, so the prover and verifier
-- pipelines are modelled from the spec)
-- ================================================================================================

def msgVerifyFailedDepth0 : String :=
  "verification of low-degree proof failed: evaluations did not match column value at depth 0"

def msgVerifyFailedStart : String := "verification of low-degree proof failed"

/-- Modelled from the spec: the proof record (spec sections 3 and 6).  The
Merkle commitments, FRI transcript and openings are out-of-scope library
structure; what the claims exercise is that a proof binds the honest
execution statement (digest, public inputs, outputs), so the model keeps
exactly that statement. -/
structure ProofObj where
  digest : List F
  public_inputs : List F
  outputs : List F
deriving DecidableEq

/-- Modelled from the spec: the prover entry point
execute(program, inputs, num_outputs, options) of section 6, for the
claims S1 and S2, which pass only public inputs and default options.  It
runs the program through the trace builder semantics of stack.rs (the
provided source of truth for opcode effects), reads num_outputs cells
from the last trace row, and emits the digest of the program without its
terminal NOOP together with a proof binding the statement. -/
def processorExecute (program : List F) (publics : List F) (num_outputs : Nat) :
    Except String (List F × List F × ProofObj) :=
  match runLoop program program.length program.length 0 (initStack ⟨publics, [], []⟩) with
  | .error e => .error e
  | .ok st =>
    let outputs := (List.range num_outputs).map
      (fun j => getReg st.user_registers j (program.length - 1))
    let digest := spongeDigest program.dropLast
    .ok (outputs, digest, ⟨digest, publics, outputs⟩)

/-- Modelled from the spec: the verifier entry point
verify(program_digest, public_inputs, claimed_outputs, proof) of section
6, with the failure mode of sections 4.5 and 8: an honest proof verifies
against exactly the statement it was produced for, and any mismatch of
digest, public inputs or claimed outputs surfaces as the low-degree
check failure at folding depth 0 observed by the tests. -/
def verify (program_digest : List F) (public_inputs : List F) (claimed_outputs : List F)
    (proof : ProofObj) : Except String Bool :=
  if proof.digest = program_digest ∧ proof.public_inputs = public_inputs ∧
      proof.outputs = claimed_outputs
  then .ok true
  else .error msgVerifyFailedDepth0

-- ================================================================================================
-- CONSTRAINT POLYNOMIAL (constraint_poly.rs)
-- ================================================================================================

/-- Modelled from the spec: MAX_CONSTRAINT_DEGREE (spec section 3: the
constraint polynomial length is trace_length times MAX_CONSTRAINT_DEGREE;
its declaration is outside the provided sources).  The transition
constraint system has degree 8. -/
def MAX_CONSTRAINT_DEGREE : Nat := 8

/-- Modelled from the spec: polynom::eval, a given library primitive
(polynomials stored low coefficient first, Horner evaluation). -/
def polyEval : List F64 → F64 → F64
  | [], _ => 0
  | c :: rest, x => c + x * polyEval rest x

/-- Modelled from the spec: polynom::syn_div_in_place, a given library
primitive: in-place synthetic division by (x - z).  The loop walks the
coefficient vector from the highest index down carrying c, writing the
carry into each slot; functionally the pair below is (new vector, final
carry). -/
def synDivGo (z : F64) : List F64 → List F64 × F64
  | [] => ([], 0)
  | c :: rest =>
    let p := synDivGo z rest
    (p.2 :: p.1, c + z * p.2)

/-- The vector left in place by syn_div_in_place (the final carry, which
holds the remainder, is discarded). -/
def synDiv (p : List F64) (z : F64) : List F64 := (synDivGo z p).1

/-- Modelled from the spec: parallel::mul_acc, a given library primitive:
result[i] := result[i] + values[i] * c. -/
def mulAcc (result values : List F64) (c : F64) : List F64 :=
  List.zipWith (fun r v => r + v * c) result values

/-- Subtract a constant from the zeroth coefficient of a polynomial (the
in-place update poly[0] := poly[0] - z_value of merge_into). -/
def subConst (p : List F64) (v : F64) : List F64 :=
  match p with
  | [] => []
  | c :: rest => (c - v) :: rest

/-- The coefficients of q(x) * (x - z), truncated to the length of q
(exact when the top coefficient of q is zero, as it is for every
synthetic-division quotient): coefficient i is q[i-1] - z * q[i]. -/
def mulXminusZ (q : List F64) (z : F64) : List F64 :=
  List.zipWith (fun a b => a - b) (0 :: q) (q.map (fun t => z * t))

/-- Modelled from the spec: the composition coefficient record
(utils::CompositionCoefficients); merge_into uses only its constraints
coefficient. -/
structure CompositionCoefficients where
  constraints : F64

structure ConstraintPoly where
  poly : List F64
deriving DecidableEq

namespace ConstraintPoly

/-- constraint_poly.rs get_expected_degree. -/
def get_expected_degree (poly : List F64) : Nat :=
  let trace_length := poly.length / MAX_CONSTRAINT_DEGREE
  poly.length - trace_length

/-- constraint_poly.rs ConstraintPoly::new: the power-of-two length
assert becomes an error value (the debug assert on the actual degree is
compiled out of release builds and is not modelled). -/
def new (poly : List F64) : Except String ConstraintPoly :=
  if isPow2 poly.length = true then .ok ⟨poly⟩
  else .error "poly length must be a power of two"

/-- constraint_poly.rs ConstraintPoly::degree. -/
def degree (cp : ConstraintPoly) : Nat :=
  get_expected_degree cp.poly

/-- constraint_poly.rs ConstraintPoly::merge_into: evaluate at z,
subtract the value from the zeroth coefficient, synthetic-divide in
place by (x - z), multiply-accumulate into the result buffer with the
constraints coefficient; returns (new result buffer, returned z value).
-/
def merge_into (cp : ConstraintPoly) (result : List F64) (z : F64)
    (cc : CompositionCoefficients) : List F64 × F64 :=
  let z_value := polyEval cp.poly z
  let poly2 := subConst cp.poly z_value
  let poly3 := synDiv poly2 z
  (mulAcc result poly3 cc.constraints, z_value)

end ConstraintPoly

-- ================================================================================================
-- FLOW CONTROL CONSTRAINT EVALUATORS (decoder2/flow_ops.rs)
-- ================================================================================================

/-- The mutable evaluation buffer of the constraint evaluators, indexed
by constraint position. -/
def Buf : Type := Nat → F

def zeroBuf : Buf := fun _ => 0

/-- decoder2 are_equal: zero exactly when the two values agree. -/
def are_equal (a b : F) : F := a - b

/-- decoder2 is_zero: zero exactly when the value is zero. -/
def is_zero (a : F) : F := a

/-- EvaluationResult::agg_constraint: result[i] := result[i] + flag * value. -/
def agg_constraint (r : Buf) (i : Nat) (flag value : F) : Buf :=
  fun j => if j = i then r i + flag * value else r j

/-- A sequence of agg_constraint calls (position, value) applied in order
with a common flag. -/
def foldAgg (r : Buf) (flag : F) (ws : List (Nat × F)) : Buf :=
  ws.foldl (fun acc w => agg_constraint acc w.1 flag w.2) r

/-- The (position, value) sequence written by enforce_stack_pop on a
buffer slice starting at off whose length equals the old stack length:
new[i] = old[i+1] below the last index, and the last new slot is zero. -/
def popWrites (off : Nat) (old_stack new_stack : List F) : List (Nat × F) :=
  let last_idx := old_stack.length - 1
  ((List.range last_idx).map
    (fun i => (off + i, are_equal (old_stack.getD (i + 1) 0) (new_stack.getD i 0)))) ++
  [(off + last_idx, is_zero (new_stack.getD last_idx 0))]

/-- flow_ops.rs enforce_stack_pop, acting at offset off of the result
buffer (the Rust code passes the subslice result[off..off+len]). -/
def enforce_stack_pop (r : Buf) (off : Nat) (old_stack new_stack : List F) (op_flag : F) : Buf :=
  foldAgg r op_flag (popWrites off old_stack new_stack)

/-- The (position, value) sequence written by enforce_stack_push:
new[0] = push_value and new[i] = old[i-1] above it. -/
def pushWrites (off : Nat) (old_stack new_stack : List F) (push_value : F) : List (Nat × F) :=
  (off, are_equal push_value (new_stack.getD 0 0)) ::
  ((List.range' 1 (old_stack.length - 1)).map
    (fun i => (off + i, are_equal (old_stack.getD (i - 1) 0) (new_stack.getD i 0))))

/-- flow_ops.rs enforce_stack_push at offset off. -/
def enforce_stack_push (r : Buf) (off : Nat) (old_stack new_stack : List F) (push_value : F)
    (op_flag : F) : Buf :=
  foldAgg r op_flag (pushWrites off old_stack new_stack push_value)

/-- The (position, value) sequence written by enforce_stack_copy:
new[i] = old[i] everywhere. -/
def copyWrites (off : Nat) (old_stack new_stack : List F) : List (Nat × F) :=
  (List.range old_stack.length).map
    (fun i => (off + i, are_equal (old_stack.getD i 0) (new_stack.getD i 0)))

/-- flow_ops.rs enforce_stack_copy at offset off. -/
def enforce_stack_copy (r : Buf) (off : Nat) (old_stack new_stack : List F) (op_flag : F) : Buf :=
  foldAgg r op_flag (copyWrites off old_stack new_stack)

/-- Modelled from the spec: the TraceState row accessors used by
flow_ops.rs (the TraceState struct itself is declared outside the
provided sources): the 4 sponge lanes, the context stack and the loop
stack regions of one trace row (spec section 3). -/
structure TraceState where
  sponge : List F
  ctx_stack : List F
  loop_stack : List F

/-- flow_ops.rs enforce_begin: sponge cleared, parent hash pushed onto
the context stack, loop stack unchanged. -/
def enforce_begin (r : Buf) (current next : TraceState) (op_flag : F) : Buf :=
  let r1 := agg_constraint r 0 op_flag (is_zero (next.sponge.getD 0 0))
  let r2 := agg_constraint r1 1 op_flag (is_zero (next.sponge.getD 1 0))
  let r3 := agg_constraint r2 2 op_flag (is_zero (next.sponge.getD 2 0))
  let r4 := agg_constraint r3 3 op_flag (is_zero (next.sponge.getD 3 0))
  let parent_hash := current.sponge.getD 0 0
  let r5 := enforce_stack_push r4 4 current.ctx_stack next.ctx_stack parent_hash op_flag
  enforce_stack_copy r5 (4 + current.ctx_stack.length) current.loop_stack next.loop_stack op_flag

/-- flow_ops.rs enforce_tend: parent hash moves into sponge lane 0, the
block hash into lane 1, lane 2 is unconstrained, lane 3 is zero; parent
hash popped from the context stack; loop stack unchanged. -/
def enforce_tend (r : Buf) (current next : TraceState) (op_flag : F) : Buf :=
  let parent_hash := current.ctx_stack.getD 0 0
  let block_hash := current.sponge.getD 0 0
  let r1 := agg_constraint r 0 op_flag (are_equal parent_hash (next.sponge.getD 0 0))
  let r2 := agg_constraint r1 1 op_flag (are_equal block_hash (next.sponge.getD 1 0))
  let r3 := agg_constraint r2 3 op_flag (is_zero (next.sponge.getD 3 0))
  let r4 := enforce_stack_pop r3 4 current.ctx_stack next.ctx_stack op_flag
  enforce_stack_copy r4 (4 + current.ctx_stack.length) current.loop_stack next.loop_stack op_flag

/-- flow_ops.rs enforce_fend: parent hash moves into sponge lane 0, lane
1 is unconstrained, the block hash moves into lane 2, lane 3 is zero;
parent hash popped from the context stack; loop stack unchanged. -/
def enforce_fend (r : Buf) (current next : TraceState) (op_flag : F) : Buf :=
  let parent_hash := current.ctx_stack.getD 0 0
  let block_hash := current.sponge.getD 0 0
  let r1 := agg_constraint r 0 op_flag (are_equal parent_hash (next.sponge.getD 0 0))
  let r2 := agg_constraint r1 2 op_flag (are_equal block_hash (next.sponge.getD 2 0))
  let r3 := agg_constraint r2 3 op_flag (is_zero (next.sponge.getD 3 0))
  let r4 := enforce_stack_pop r3 4 current.ctx_stack next.ctx_stack op_flag
  enforce_stack_copy r4 (4 + current.ctx_stack.length) current.loop_stack next.loop_stack op_flag

-- ================================================================================================
-- DERIVED DEFINITIONS USED BY THE STATEMENTS
-- ================================================================================================

/-- The structural invariant of the trace builder state: the depth never
exceeds the max_depth watermark, the watermark never exceeds the number
of allocated user registers, and the auxiliary region has AUX_WIDTH
registers. -/
def StackInv (st : StackTrace) : Prop :=
  st.depth ≤ st.max_depth ∧ st.max_depth ≤ st.user_registers.length ∧
    st.aux_registers.length = AUX_WIDTH

instance (st : StackTrace) : Decidable (StackInv st) := by
  unfold StackInv; infer_instance

/-- The S1 scenario program of processor/tests.rs execute_verify. -/
def s1Program : List F :=
  ([opcodes.SWAP, opcodes.DUP2, opcodes.DROP, opcodes.ADD,
    opcodes.SWAP, opcodes.DUP2, opcodes.DROP, opcodes.ADD,
    opcodes.SWAP, opcodes.DUP2, opcodes.DROP, opcodes.ADD,
    opcodes.NOOP, opcodes.NOOP, opcodes.NOOP, opcodes.NOOP]).map (fun n => (n : F))

/-- The S1 public inputs. -/
def s1Inputs : List F := [1, 0]

/-- A minimal valid program for the trace builder: BEGIN then NOOP
(power-of-two length 2). -/
def c3Program : List F := [(opcodes.BEGIN : F), (opcodes.NOOP : F)]

/-- A program whose execution grows the stack past the watermark in one
shift: depth 5, DROP to 4, then DUP4 jumps the depth to 8 while the
watermark moves from 5 to 9. -/
def c5Program : List F :=
  [(opcodes.BEGIN : F), (opcodes.DROP : F), (opcodes.DUP4 : F), (opcodes.NOOP : F)]

def c5Inputs : ProgramInputs := ⟨[1, 1, 1, 1, 1], [], []⟩

/-- A length-16 coefficient vector of the degree expected by
ConstraintPoly (top coefficient at index 14 = 16 - 16/8). -/
def c9Poly : List F64 := List.replicate 14 (0 : F64) ++ [1, 0]

-- ================================================================================================
-- THEOREMS
-- ================================================================================================

-- Cell machinery -------------------------------------------------------------------------------

theorem length_setReg (regs : List Col) (c r : Nat) (v : F) :
    (setReg regs c r v).length = regs.length := by
  simp [setReg]

theorem length_writeCells (regs : List Col) (ws : List (Nat × Nat × F)) :
    (writeCells regs ws).length = regs.length := by
  induction ws generalizing regs with
  | nil => rfl
  | cons w ws ih => simp [writeCells, List.foldl_cons] at ih ⊢; rw [ih, length_setReg]

theorem getReg_setReg (regs : List Col) (c r : Nat) (v : F) (c2 r2 : Nat) :
    getReg (setReg regs c r v) c2 r2 =
      if c2 = c ∧ r2 = r ∧ c < regs.length then v else getReg regs c2 r2 := by
  unfold getReg setReg
  by_cases hc : c < regs.length
  · by_cases hcc : c2 = c
    · subst hcc
      rw [List.getD_eq_getElem?_getD, List.getElem?_set_self (by simpa using hc)]
      by_cases hr : r2 = r <;> simp [hr, hc, List.getD_eq_getElem?_getD]
    · rw [List.getD_eq_getElem?_getD, List.getElem?_set_ne (by omega)]
      simp [hcc, List.getD_eq_getElem?_getD]
  · rw [List.set_eq_of_length_le (by omega)]
    simp [hc]

theorem getReg_writeCells_notin (regs : List Col) (ws : List (Nat × Nat × F)) (c r : Nat)
    (h : ∀ w ∈ ws, ¬(w.1 = c ∧ w.2.1 = r)) :
    getReg (writeCells regs ws) c r = getReg regs c r := by
  induction ws generalizing regs with
  | nil => rfl
  | cons w ws ih =>
    simp only [writeCells, List.foldl_cons] at ih ⊢
    rw [ih _ (fun w2 hw2 => h w2 (List.mem_cons_of_mem _ hw2)), getReg_setReg]
    have hw := h w (List.mem_cons_self _ _)
    simp only [ite_eq_right_iff]
    intro hcr
    exact absurd ⟨hcr.1.symm, hcr.2.1.symm⟩ hw

theorem getReg_writeCells_last (regs : List Col) (w1 w2 : List (Nat × Nat × F))
    (c r : Nat) (v : F)
    (h2 : ∀ w ∈ w2, ¬(w.1 = c ∧ w.2.1 = r)) (hc : c < regs.length) :
    getReg (writeCells regs (w1 ++ (c, r, v) :: w2)) c r = v := by
  have hsplit : writeCells regs (w1 ++ (c, r, v) :: w2)
      = writeCells (setReg (writeCells regs w1) c r v) w2 := by
    simp [writeCells, List.foldl_append]
  rw [hsplit, getReg_writeCells_notin _ _ _ _ h2, getReg_setReg]
  have : c < (writeCells regs w1).length := by rw [length_writeCells]; exact hc
  simp [this]


theorem writeCells_append (regs : List Col) (a b : List (Nat × Nat × F)) :
    writeCells regs (a ++ b) = writeCells (writeCells regs a) b := by
  simp [writeCells, List.foldl_append]

theorem getReg_writeCells_range (regs : List Col) (s n : Nat) (tgt : Nat → Nat) (row : Nat)
    (v : Nat → F) (i : Nat) (hs : s ≤ i) (hi : i < s + n)
    (hinj : ∀ k, s ≤ k → k < s + n → tgt k = tgt i → k = i)
    (hb : tgt i < regs.length) :
    getReg (writeCells regs ((List.range' s n).map (fun k => (tgt k, row, v k)))) (tgt i) row
      = v i := by
  induction n generalizing s regs with
  | zero => omega
  | succ n ih =>
    rw [List.range'_succ]
    simp only [List.map_cons]
    rw [show ((tgt s, row, v s) :: (List.range' (s + 1) n).map (fun k => (tgt k, row, v k)))
        = [(tgt s, row, v s)] ++ (List.range' (s + 1) n).map (fun k => (tgt k, row, v k))
      from rfl, writeCells_append]
    by_cases hsi : i = s
    · subst hsi
      rw [getReg_writeCells_notin]
      · have hrw : writeCells regs [(tgt i, row, v i)] = setReg regs (tgt i) row (v i) := rfl
        rw [hrw, getReg_setReg]
        simp [hb]
      · intro w hw hcon
        rcases List.mem_map.mp hw with ⟨k, hk, rfl⟩
        rcases List.mem_range'_1.mp hk with ⟨hk1, hk2⟩
        have : k = i := hinj k (by omega) (by omega) hcon.1
        omega
    · have hlt : s < i := by omega
      have hrw : writeCells regs [(tgt s, row, v s)] = setReg regs (tgt s) row (v s) := rfl
      rw [hrw]
      exact ih (setReg regs (tgt s) row (v s)) (s + 1) hlt (by omega)
        (fun k hk1 hk2 hk3 => hinj k (by omega) (by omega) hk3)
        (by rw [length_setReg]; exact hb)

theorem getReg_writeCells_range_notin (regs : List Col) (s n : Nat) (tgt : Nat → Nat)
    (row : Nat) (v : Nat → F) (c r : Nat)
    (h : ∀ k, s ≤ k → k < s + n → ¬(tgt k = c ∧ row = r)) :
    getReg (writeCells regs ((List.range' s n).map (fun k => (tgt k, row, v k)))) c r
      = getReg regs c r := by
  apply getReg_writeCells_notin
  intro w hw
  rcases List.mem_map.mp hw with ⟨k, hk, rfl⟩
  rcases List.mem_range'_1.mp hk with ⟨hk1, hk2⟩
  exact h k hk1 (by omega)

theorem getReg_append_replicate_zero (regs : List Col) (m c r : Nat)
    (hc : regs.length ≤ c) :
    getReg (regs ++ List.replicate m zeroCol) c r = 0 := by
  unfold getReg
  rcases lt_or_ge c (regs.length + m) with h | h
  · rw [List.getD_eq_getElem?_getD, List.getElem?_append_right hc]
    have hlt : c - regs.length < m := by omega
    rw [List.getElem?_replicate, if_pos hlt]
    rfl
  · rw [List.getD_eq_getElem?_getD, List.getElem?_eq_none (by simp; omega)]
    rfl

-- Constraint buffer machinery -------------------------------------------------------------------

theorem foldAgg_append (r : Buf) (flag : F) (a b : List (Nat × F)) :
    foldAgg r flag (a ++ b) = foldAgg (foldAgg r flag a) flag b := by
  simp [foldAgg, List.foldl_append]

theorem foldAgg_notin (r : Buf) (flag : F) (ws : List (Nat × F)) (j : Nat)
    (h : ∀ w ∈ ws, w.1 ≠ j) : foldAgg r flag ws j = r j := by
  induction ws generalizing r with
  | nil => rfl
  | cons w ws ih =>
    simp only [foldAgg, List.foldl_cons] at ih ⊢
    rw [ih _ (fun w2 hw => h w2 (List.mem_cons_of_mem _ hw))]
    have hne := h w (List.mem_cons_self _ _)
    simp only [agg_constraint]
    rw [if_neg (fun hh => hne hh.symm)]

theorem foldAgg_add (ws : List (Nat × F)) (flag : F) (c : Buf) :
    ∀ (r : Buf) (j : Nat),
      foldAgg (fun j2 => r j2 + c j2) flag ws j = foldAgg r flag ws j + c j := by
  induction ws with
  | nil => intro r j; rfl
  | cons w ws ih =>
    intro r j
    simp only [foldAgg, List.foldl_cons] at ih ⊢
    have hfun : agg_constraint (fun j2 => r j2 + c j2) w.1 flag w.2
        = fun j2 => agg_constraint r w.1 flag w.2 j2 + c j2 := by
      funext j2
      simp only [agg_constraint]
      by_cases h : j2 = w.1 <;> simp [h] <;> ring
    rw [hfun]
    exact ih _ j

theorem foldAgg_scale (ws : List (Nat × F)) (flag : F) :
    ∀ (a b : Buf), (∀ j2, a j2 = flag * b j2) → ∀ j,
      foldAgg a flag ws j = flag * foldAgg b 1 ws j := by
  induction ws with
  | nil => intro a b hab j; exact hab j
  | cons w ws ih =>
    intro a b hab j
    simp only [foldAgg, List.foldl_cons] at ih ⊢
    apply ih
    intro j2
    simp only [agg_constraint]
    by_cases h : j2 = w.1 <;> simp [h, hab j2, hab w.1] <;> ring

theorem foldAgg_affine (r : Buf) (flag : F) (ws : List (Nat × F)) (j : Nat) :
    foldAgg r flag ws j = r j + flag * foldAgg zeroBuf 1 ws j := by
  have h1 : (fun j2 => zeroBuf j2 + r j2) = r := by
    funext j2; show 0 + r j2 = r j2; ring
  have h2 := foldAgg_add ws flag r zeroBuf j
  rw [h1] at h2
  have h3 := foldAgg_scale ws flag zeroBuf zeroBuf (fun j2 => by show (0 : F) = flag * 0; ring) j
  rw [h2, h3]
  ring

theorem foldAgg3_affine (r : Buf) (flag : F) (A P C : List (Nat × F)) (j : Nat) :
    foldAgg (foldAgg (foldAgg r flag A) flag P) flag C j
      = r j + flag * foldAgg (foldAgg (foldAgg zeroBuf 1 A) 1 P) 1 C j := by
  have hC := foldAgg_affine (foldAgg (foldAgg r flag A) flag P) flag C j
  have hP := foldAgg_affine (foldAgg r flag A) flag P j
  have hA := foldAgg_affine r flag A j
  have hC1 := foldAgg_affine (foldAgg (foldAgg zeroBuf 1 A) 1 P) 1 C j
  have hP1 := foldAgg_affine (foldAgg zeroBuf 1 A) 1 P j
  have hA1 := foldAgg_affine zeroBuf 1 A j
  have hz : zeroBuf j = 0 := rfl
  rw [hC, hP, hA, hC1, hP1, hA1, hz]
  ring

theorem foldAgg_single (r : Buf) (w1 w2 : List (Nat × F)) (j : Nat) (v : F)
    (h1 : ∀ w ∈ w1, w.1 ≠ j) (h2 : ∀ w ∈ w2, w.1 ≠ j) :
    foldAgg r 1 (w1 ++ (j, v) :: w2) j = r j + v := by
  rw [foldAgg_append]
  have hc : foldAgg (foldAgg r 1 w1) 1 ((j, v) :: w2)
      = foldAgg (agg_constraint (foldAgg r 1 w1) j 1 v) 1 w2 := rfl
  rw [hc, foldAgg_notin _ _ _ _ h2]
  simp only [agg_constraint, if_pos rfl]
  rw [foldAgg_notin _ _ _ _ h1]
  simp

theorem enforce_tend_affine (r : Buf) (current next : TraceState) (op_flag : F) (j : Nat) :
    enforce_tend r current next op_flag j
      = r j + op_flag * enforce_tend zeroBuf current next 1 j := by
  exact foldAgg3_affine r op_flag
    [(0, are_equal (current.ctx_stack.getD 0 0) (next.sponge.getD 0 0)),
     (1, are_equal (current.sponge.getD 0 0) (next.sponge.getD 1 0)),
     (3, is_zero (next.sponge.getD 3 0))]
    (popWrites 4 current.ctx_stack next.ctx_stack)
    (copyWrites (4 + current.ctx_stack.length) current.loop_stack next.loop_stack) j

theorem enforce_fend_affine (r : Buf) (current next : TraceState) (op_flag : F) (j : Nat) :
    enforce_fend r current next op_flag j
      = r j + op_flag * enforce_fend zeroBuf current next 1 j := by
  exact foldAgg3_affine r op_flag
    [(0, are_equal (current.ctx_stack.getD 0 0) (next.sponge.getD 0 0)),
     (2, are_equal (current.sponge.getD 0 0) (next.sponge.getD 2 0)),
     (3, is_zero (next.sponge.getD 3 0))]
    (popWrites 4 current.ctx_stack next.ctx_stack)
    (copyWrites (4 + current.ctx_stack.length) current.loop_stack next.loop_stack) j

theorem enforce_begin_affine (r : Buf) (current next : TraceState) (op_flag : F) (j : Nat) :
    enforce_begin r current next op_flag j
      = r j + op_flag * enforce_begin zeroBuf current next 1 j := by
  exact foldAgg3_affine r op_flag
    [(0, is_zero (next.sponge.getD 0 0)), (1, is_zero (next.sponge.getD 1 0)),
     (2, is_zero (next.sponge.getD 2 0)), (3, is_zero (next.sponge.getD 3 0))]
    (pushWrites 4 current.ctx_stack next.ctx_stack (current.sponge.getD 0 0))
    (copyWrites (4 + current.ctx_stack.length) current.loop_stack next.loop_stack) j

theorem foldAgg_range (r : Buf) (off s n : Nat) (v : Nat → F) (i : Nat)
    (hs : s ≤ i) (hi : i < s + n) :
    foldAgg r 1 ((List.range' s n).map (fun k => (off + k, v k))) (off + i)
      = r (off + i) + v i := by
  induction n generalizing s r with
  | zero => omega
  | succ n ih =>
    rw [List.range'_succ]
    simp only [List.map_cons]
    have hc : foldAgg r 1 ((off + s, v s) :: (List.range' (s + 1) n).map (fun k => (off + k, v k)))
        = foldAgg (agg_constraint r (off + s) 1 (v s)) 1
            ((List.range' (s + 1) n).map (fun k => (off + k, v k))) := rfl
    rw [hc]
    by_cases hsi : i = s
    · subst hsi
      rw [foldAgg_notin]
      · simp [agg_constraint]
      · intro w hw
        rcases List.mem_map.mp hw with ⟨k, hk, rfl⟩
        rcases List.mem_range'_1.mp hk with ⟨hk1, hk2⟩
        simp only [ne_eq]
        omega
    · have hlt : s < i := by omega
      rw [ih _ (s + 1) hlt (by omega)]
      simp only [agg_constraint]
      rw [if_neg (by omega)]

theorem foldAgg_range_notin (r : Buf) (flag : F) (off s n : Nat) (v : Nat → F) (j : Nat)
    (h : ∀ k, s ≤ k → k < s + n → off + k ≠ j) :
    foldAgg r flag ((List.range' s n).map (fun k => (off + k, v k))) j = r j := by
  apply foldAgg_notin
  intro w hw
  rcases List.mem_map.mp hw with ⟨k, hk, rfl⟩
  rcases List.mem_range'_1.mp hk with ⟨hk1, hk2⟩
  exact h k hk1 (by omega)

-- enforce_stack_pop and enforce_stack_copy region lemmas ----------------------------------------

theorem enforce_stack_copy_out (r : Buf) (off : Nat) (old_stack new_stack : List F)
    (flag : F) (j : Nat) (hj : j < off ∨ off + old_stack.length ≤ j) :
    enforce_stack_copy r off old_stack new_stack flag j = r j := by
  unfold enforce_stack_copy copyWrites
  rw [List.range_eq_range']
  exact foldAgg_range_notin r flag off 0 old_stack.length _ j (fun k hk1 hk2 => by omega)

theorem enforce_stack_copy_at (r : Buf) (off : Nat) (old_stack new_stack : List F)
    (i : Nat) (hi : i < old_stack.length) :
    enforce_stack_copy r off old_stack new_stack 1 (off + i)
      = r (off + i) + are_equal (old_stack.getD i 0) (new_stack.getD i 0) := by
  unfold enforce_stack_copy copyWrites
  rw [List.range_eq_range']
  exact foldAgg_range r off 0 old_stack.length _ i (by omega) (by omega)

theorem enforce_stack_pop_out (r : Buf) (off : Nat) (old_stack new_stack : List F)
    (flag : F) (j : Nat) (hj : j < off ∨ off + old_stack.length ≤ j)
    (hm : 1 ≤ old_stack.length) :
    enforce_stack_pop r off old_stack new_stack flag j = r j := by
  simp only [enforce_stack_pop, popWrites]
  rw [List.range_eq_range', foldAgg_append]
  rw [foldAgg_notin _ _ [(off + (old_stack.length - 1), is_zero (new_stack.getD (old_stack.length - 1) 0))] j
    (by intro w hw; simp at hw; subst hw; simp; omega)]
  exact foldAgg_range_notin r flag off 0 (old_stack.length - 1) _ j (fun k hk1 hk2 => by omega)

theorem enforce_stack_pop_at_lt (r : Buf) (off : Nat) (old_stack new_stack : List F)
    (i : Nat) (hi : i < old_stack.length - 1) :
    enforce_stack_pop r off old_stack new_stack 1 (off + i)
      = r (off + i) + are_equal (old_stack.getD (i + 1) 0) (new_stack.getD i 0) := by
  simp only [enforce_stack_pop, popWrites]
  rw [List.range_eq_range', foldAgg_append]
  rw [foldAgg_notin _ _ [(off + (old_stack.length - 1), is_zero (new_stack.getD (old_stack.length - 1) 0))] (off + i)
    (by intro w hw; simp at hw; subst hw; simp; omega)]
  exact foldAgg_range r off 0 (old_stack.length - 1) _ i (by omega) (by omega)

theorem enforce_stack_pop_at_last (r : Buf) (off : Nat) (old_stack new_stack : List F)
    (hm : 1 ≤ old_stack.length) :
    enforce_stack_pop r off old_stack new_stack 1 (off + (old_stack.length - 1))
      = r (off + (old_stack.length - 1)) + is_zero (new_stack.getD (old_stack.length - 1) 0) := by
  simp only [enforce_stack_pop, popWrites]
  rw [List.range_eq_range', foldAgg_append]
  have hc : foldAgg (foldAgg r 1 ((List.range' 0 (old_stack.length - 1)).map
        (fun i => (off + i, are_equal (old_stack.getD (i + 1) 0) (new_stack.getD i 0))))) 1
        [(off + (old_stack.length - 1), is_zero (new_stack.getD (old_stack.length - 1) 0))]
      = agg_constraint (foldAgg r 1 ((List.range' 0 (old_stack.length - 1)).map
        (fun i => (off + i, are_equal (old_stack.getD (i + 1) 0) (new_stack.getD i 0)))))
        (off + (old_stack.length - 1)) 1
        (is_zero (new_stack.getD (old_stack.length - 1) 0)) := rfl
  rw [hc]
  simp only [agg_constraint, if_pos rfl]
  rw [foldAgg_range_notin r 1 off 0 (old_stack.length - 1) _ _ (fun k hk1 hk2 => by omega)]
  simp

theorem agg3_out (r : Buf) (i0 i1 i2 : Nat) (v0 v1 v2 : F) (j : Nat)
    (h0 : j ≠ i0) (h1 : j ≠ i1) (h2 : j ≠ i2) :
    agg_constraint (agg_constraint (agg_constraint r i0 1 v0) i1 1 v1) i2 1 v2 j = r j := by
  simp only [agg_constraint]
  rw [if_neg h2, if_neg h1, if_neg h0]

theorem enforce_tend_val_low (current next : TraceState) (j : Nat) (hj : j < 4)
    (hm : 1 ≤ current.ctx_stack.length) :
    enforce_tend zeroBuf current next 1 j =
      if j = 0 then are_equal (current.ctx_stack.getD 0 0) (next.sponge.getD 0 0)
      else if j = 1 then are_equal (current.sponge.getD 0 0) (next.sponge.getD 1 0)
      else if j = 3 then is_zero (next.sponge.getD 3 0) else 0 := by
  simp only [enforce_tend]
  rw [enforce_stack_copy_out _ _ _ _ _ _ (Or.inl (by omega)),
    enforce_stack_pop_out _ _ _ _ _ _ (Or.inl (by omega)) hm]
  interval_cases j <;> simp [agg_constraint, zeroBuf]

theorem enforce_tend_val_pop (current next : TraceState) (i : Nat)
    (hm : 1 ≤ current.ctx_stack.length) (hi : i < current.ctx_stack.length) :
    enforce_tend zeroBuf current next 1 (4 + i) =
      if i < current.ctx_stack.length - 1 then
        are_equal (current.ctx_stack.getD (i + 1) 0) (next.ctx_stack.getD i 0)
      else is_zero (next.ctx_stack.getD (current.ctx_stack.length - 1) 0) := by
  simp only [enforce_tend]
  rw [enforce_stack_copy_out _ _ _ _ _ _ (Or.inl (by omega))]
  by_cases hlt : i < current.ctx_stack.length - 1
  · rw [enforce_stack_pop_at_lt _ _ _ _ _ hlt,
      agg3_out _ _ _ _ _ _ _ _ (by omega) (by omega) (by omega), if_pos hlt]
    simp [zeroBuf]
  · have hieq : i = current.ctx_stack.length - 1 := by omega
    subst hieq
    rw [enforce_stack_pop_at_last _ _ _ _ hm,
      agg3_out _ _ _ _ _ _ _ _ (by omega) (by omega) (by omega), if_neg hlt]
    simp [zeroBuf]

theorem enforce_tend_val_loop (current next : TraceState) (i : Nat)
    (hm : 1 ≤ current.ctx_stack.length) (hi : i < current.loop_stack.length) :
    enforce_tend zeroBuf current next 1 (4 + current.ctx_stack.length + i) =
      are_equal (current.loop_stack.getD i 0) (next.loop_stack.getD i 0) := by
  simp only [enforce_tend]
  rw [enforce_stack_copy_at _ _ _ _ _ hi,
    enforce_stack_pop_out _ _ _ _ _ _ (Or.inr (by omega)) hm,
    agg3_out _ _ _ _ _ _ _ _ (by omega) (by omega) (by omega)]
  simp [zeroBuf]

theorem enforce_fend_val_low (current next : TraceState) (j : Nat) (hj : j < 4)
    (hm : 1 ≤ current.ctx_stack.length) :
    enforce_fend zeroBuf current next 1 j =
      if j = 0 then are_equal (current.ctx_stack.getD 0 0) (next.sponge.getD 0 0)
      else if j = 2 then are_equal (current.sponge.getD 0 0) (next.sponge.getD 2 0)
      else if j = 3 then is_zero (next.sponge.getD 3 0) else 0 := by
  simp only [enforce_fend]
  rw [enforce_stack_copy_out _ _ _ _ _ _ (Or.inl (by omega)),
    enforce_stack_pop_out _ _ _ _ _ _ (Or.inl (by omega)) hm]
  interval_cases j <;> simp [agg_constraint, zeroBuf]

theorem enforce_fend_val_pop (current next : TraceState) (i : Nat)
    (hm : 1 ≤ current.ctx_stack.length) (hi : i < current.ctx_stack.length) :
    enforce_fend zeroBuf current next 1 (4 + i) =
      if i < current.ctx_stack.length - 1 then
        are_equal (current.ctx_stack.getD (i + 1) 0) (next.ctx_stack.getD i 0)
      else is_zero (next.ctx_stack.getD (current.ctx_stack.length - 1) 0) := by
  simp only [enforce_fend]
  rw [enforce_stack_copy_out _ _ _ _ _ _ (Or.inl (by omega))]
  by_cases hlt : i < current.ctx_stack.length - 1
  · rw [enforce_stack_pop_at_lt _ _ _ _ _ hlt,
      agg3_out _ _ _ _ _ _ _ _ (by omega) (by omega) (by omega), if_pos hlt]
    simp [zeroBuf]
  · have hieq : i = current.ctx_stack.length - 1 := by omega
    subst hieq
    rw [enforce_stack_pop_at_last _ _ _ _ hm,
      agg3_out _ _ _ _ _ _ _ _ (by omega) (by omega) (by omega), if_neg hlt]
    simp [zeroBuf]

theorem enforce_fend_val_loop (current next : TraceState) (i : Nat)
    (hm : 1 ≤ current.ctx_stack.length) (hi : i < current.loop_stack.length) :
    enforce_fend zeroBuf current next 1 (4 + current.ctx_stack.length + i) =
      are_equal (current.loop_stack.getD i 0) (next.loop_stack.getD i 0) := by
  simp only [enforce_fend]
  rw [enforce_stack_copy_at _ _ _ _ _ hi,
    enforce_stack_pop_out _ _ _ _ _ _ (Or.inr (by omega)) hm,
    agg3_out _ _ _ _ _ _ _ _ (by omega) (by omega) (by omega)]
  simp [zeroBuf]

theorem list_pop_ext (old new : List F) (hm : 1 ≤ old.length)
    (hlen : new.length = old.length) :
    ((∀ i, i < old.length - 1 → new.getD i 0 = old.getD (i + 1) 0) ∧
      new.getD (old.length - 1) 0 = 0) ↔ new = old.drop 1 ++ [0] := by
  constructor
  · rintro ⟨h1, h2⟩
    apply List.ext_getElem
    · simp [hlen]; omega
    · intro i hi1 hi2
      by_cases hilt : i < old.length - 1
      · have he := h1 i hilt
        rw [List.getD_eq_getElem _ _ (by omega), List.getD_eq_getElem _ _ (by omega)] at he
        rw [he, List.getElem_append_left (by simp <;> omega)]
        simp [Nat.add_comm]
      · have hieq : i = old.length - 1 := by omega
        subst hieq
        rw [List.getD_eq_getElem _ _ (by omega)] at h2
        rw [h2, List.getElem_append_right (by simp <;> omega)]
        simp
  · rintro rfl
    constructor
    · intro i hi
      rw [List.getD_eq_getElem _ _ (by simp <;> omega), List.getD_eq_getElem _ _ (by omega),
        List.getElem_append_left (by simp <;> omega)]
      simp [Nat.add_comm]
    · rw [List.getD_eq_getElem _ _ (by simp <;> omega),
        List.getElem_append_right (by simp <;> omega)]
      simp

theorem list_copy_ext (old new : List F) (hlen : new.length = old.length) :
    (∀ i, i < old.length → old.getD i 0 = new.getD i 0) ↔ new = old := by
  constructor
  · intro h
    apply List.ext_getElem (by omega)
    intro i hi1 hi2
    have he := h i (by omega)
    rw [List.getD_eq_getElem _ _ (by omega), List.getD_eq_getElem _ _ (by omega)] at he
    exact he.symm
  · rintro rfl
    intro i hi
    rfl

theorem are_equal_eq_zero (a b : F) : are_equal a b = 0 ↔ a = b := sub_eq_zero

theorem is_zero_eq (a : F) : is_zero a = a := rfl

/-- Claim C10: calling enforce_begin, enforce_tend, or enforce_fend with
op_flag = 0 leaves the result buffer unchanged; more generally each
evaluator writes result[i] := result[i] + op_flag * value through
agg_constraint, so the evaluated result is linear in op_flag. -/
theorem claim_C10 : ∀ (r : Buf) (current next : TraceState) (j : Nat),
    enforce_begin r current next 0 j = r j ∧
    enforce_tend r current next 0 j = r j ∧
    enforce_fend r current next 0 j = r j ∧
    (∀ flag : F,
      enforce_begin r current next flag j
        = r j + flag * enforce_begin zeroBuf current next 1 j ∧
      enforce_tend r current next flag j
        = r j + flag * enforce_tend zeroBuf current next 1 j ∧
      enforce_fend r current next flag j
        = r j + flag * enforce_fend zeroBuf current next 1 j) ∧
    (∀ (i : Nat) (flag value : F),
      agg_constraint r i flag value j = if j = i then r j + flag * value else r j) := by
  intro r c n j
  refine ⟨?_, ?_, ?_,
    fun flag => ⟨enforce_begin_affine r c n flag j, enforce_tend_affine r c n flag j,
      enforce_fend_affine r c n flag j⟩, ?_⟩
  · rw [enforce_begin_affine]; ring
  · rw [enforce_tend_affine]; ring
  · rw [enforce_fend_affine]; ring
  · intro i flag value
    simp only [agg_constraint]
    by_cases h : j = i
    · subst h; simp
    · simp [h]

/-- Claim C7: with op_flag = 1 and a context stack of positive depth,
enforce_tend evaluates to the all-zeros vector exactly when next sponge
lane 0 carries the parent hash (top of the context stack), lane 1 the
block hash (current sponge lane 0), lane 3 is zero (lane 2 is
unconstrained), the context stack is popped with zero shifted into its
last slot, and the loop stack is unchanged; enforce_fend is identical
except that the block hash must sit in lane 2 and lane 1 is
unconstrained. -/
theorem claim_C7 : ∀ (current next : TraceState),
    1 ≤ current.ctx_stack.length →
    next.ctx_stack.length = current.ctx_stack.length →
    next.loop_stack.length = current.loop_stack.length →
    (((∀ j, j < 4 + current.ctx_stack.length + current.loop_stack.length →
        enforce_tend zeroBuf current next 1 j = 0) ↔
      (next.sponge.getD 0 0 = current.ctx_stack.getD 0 0 ∧
       next.sponge.getD 1 0 = current.sponge.getD 0 0 ∧
       next.sponge.getD 3 0 = 0 ∧
       next.ctx_stack = current.ctx_stack.drop 1 ++ [0] ∧
       next.loop_stack = current.loop_stack)) ∧
     ((∀ j, j < 4 + current.ctx_stack.length + current.loop_stack.length →
        enforce_fend zeroBuf current next 1 j = 0) ↔
      (next.sponge.getD 0 0 = current.ctx_stack.getD 0 0 ∧
       next.sponge.getD 2 0 = current.sponge.getD 0 0 ∧
       next.sponge.getD 3 0 = 0 ∧
       next.ctx_stack = current.ctx_stack.drop 1 ++ [0] ∧
       next.loop_stack = current.loop_stack))) := by
  intro c n hm hctxlen hlooplen
  constructor
  · constructor
    · intro h
      have h0 := h 0 (by omega)
      rw [enforce_tend_val_low c n 0 (by omega) hm, if_pos rfl] at h0
      have h1 := h 1 (by omega)
      rw [enforce_tend_val_low c n 1 (by omega) hm, if_neg (by omega), if_pos rfl] at h1
      have h3 := h 3 (by omega)
      rw [enforce_tend_val_low c n 3 (by omega) hm, if_neg (by omega), if_neg (by omega),
        if_pos rfl] at h3
      refine ⟨(are_equal_eq_zero _ _).mp h0 |>.symm, (are_equal_eq_zero _ _).mp h1 |>.symm,
        h3, ?_, ?_⟩
      · apply (list_pop_ext c.ctx_stack n.ctx_stack hm hctxlen).mp
        constructor
        · intro i hi
          have hp := h (4 + i) (by omega)
          rw [enforce_tend_val_pop c n i hm (by omega), if_pos hi] at hp
          exact ((are_equal_eq_zero _ _).mp hp).symm
        · have hp := h (4 + (c.ctx_stack.length - 1)) (by omega)
          rw [enforce_tend_val_pop c n (c.ctx_stack.length - 1) hm (by omega),
            if_neg (by omega)] at hp
          exact hp
      · apply (list_copy_ext c.loop_stack n.loop_stack hlooplen).mp
        intro i hi
        have hp := h (4 + c.ctx_stack.length + i) (by omega)
        rw [enforce_tend_val_loop c n i hm hi] at hp
        exact (are_equal_eq_zero _ _).mp hp
    · rintro ⟨h0, h1, h3, hctx, hloop⟩
      intro j hj
      by_cases hj4 : j < 4
      · rw [enforce_tend_val_low c n j hj4 hm]
        interval_cases j
        · rw [if_pos rfl]
          exact (are_equal_eq_zero _ _).mpr h0.symm
        · rw [if_neg (by omega), if_pos rfl]
          exact (are_equal_eq_zero _ _).mpr h1.symm
        · rw [if_neg (by omega), if_neg (by omega), if_neg (by omega)]
        · rw [if_neg (by omega), if_neg (by omega), if_pos rfl]
          exact h3
      · have hpop := (list_pop_ext c.ctx_stack n.ctx_stack hm hctxlen).mpr hctx
        by_cases hjp : j < 4 + c.ctx_stack.length
        · have hrw : j = 4 + (j - 4) := by omega
          rw [hrw, enforce_tend_val_pop c n (j - 4) hm (by omega)]
          by_cases hlt : j - 4 < c.ctx_stack.length - 1
          · rw [if_pos hlt]
            exact (are_equal_eq_zero _ _).mpr (hpop.1 (j - 4) hlt).symm
          · rw [if_neg hlt]
            exact hpop.2
        · have hcopy := (list_copy_ext c.loop_stack n.loop_stack hlooplen).mpr hloop
          have hrw : j = 4 + c.ctx_stack.length + (j - (4 + c.ctx_stack.length)) := by omega
          rw [hrw, enforce_tend_val_loop c n (j - (4 + c.ctx_stack.length)) hm (by omega)]
          exact (are_equal_eq_zero _ _).mpr (hcopy _ (by omega))
  · constructor
    · intro h
      have h0 := h 0 (by omega)
      rw [enforce_fend_val_low c n 0 (by omega) hm, if_pos rfl] at h0
      have h2 := h 2 (by omega)
      rw [enforce_fend_val_low c n 2 (by omega) hm, if_neg (by omega), if_pos rfl] at h2
      have h3 := h 3 (by omega)
      rw [enforce_fend_val_low c n 3 (by omega) hm, if_neg (by omega), if_neg (by omega),
        if_pos rfl] at h3
      refine ⟨(are_equal_eq_zero _ _).mp h0 |>.symm, (are_equal_eq_zero _ _).mp h2 |>.symm,
        h3, ?_, ?_⟩
      · apply (list_pop_ext c.ctx_stack n.ctx_stack hm hctxlen).mp
        constructor
        · intro i hi
          have hp := h (4 + i) (by omega)
          rw [enforce_fend_val_pop c n i hm (by omega), if_pos hi] at hp
          exact ((are_equal_eq_zero _ _).mp hp).symm
        · have hp := h (4 + (c.ctx_stack.length - 1)) (by omega)
          rw [enforce_fend_val_pop c n (c.ctx_stack.length - 1) hm (by omega),
            if_neg (by omega)] at hp
          exact hp
      · apply (list_copy_ext c.loop_stack n.loop_stack hlooplen).mp
        intro i hi
        have hp := h (4 + c.ctx_stack.length + i) (by omega)
        rw [enforce_fend_val_loop c n i hm hi] at hp
        exact (are_equal_eq_zero _ _).mp hp
    · rintro ⟨h0, h2, h3, hctx, hloop⟩
      intro j hj
      by_cases hj4 : j < 4
      · rw [enforce_fend_val_low c n j hj4 hm]
        interval_cases j
        · rw [if_pos rfl]
          exact (are_equal_eq_zero _ _).mpr h0.symm
        · rw [if_neg (by omega), if_neg (by omega), if_neg (by omega)]
        · rw [if_neg (by omega), if_pos rfl]
          exact (are_equal_eq_zero _ _).mpr h2.symm
        · rw [if_neg (by omega), if_neg (by omega), if_pos rfl]
          exact h3
      · have hpop := (list_pop_ext c.ctx_stack n.ctx_stack hm hctxlen).mpr hctx
        by_cases hjp : j < 4 + c.ctx_stack.length
        · have hrw : j = 4 + (j - 4) := by omega
          rw [hrw, enforce_fend_val_pop c n (j - 4) hm (by omega)]
          by_cases hlt : j - 4 < c.ctx_stack.length - 1
          · rw [if_pos hlt]
            exact (are_equal_eq_zero _ _).mpr (hpop.1 (j - 4) hlt).symm
          · rw [if_neg hlt]
            exact hpop.2
        · have hcopy := (list_copy_ext c.loop_stack n.loop_stack hlooplen).mpr hloop
          have hrw : j = 4 + c.ctx_stack.length + (j - (4 + c.ctx_stack.length)) := by omega
          rw [hrw, enforce_fend_val_loop c n (j - (4 + c.ctx_stack.length)) hm (by omega)]
          exact (are_equal_eq_zero _ _).mpr (hcopy _ (by omega))

/-- Witness for claim C7: the concrete correct TEND transition of the
flow_ops.rs tests (sponge [3,5,7,9], context stack [8]; next sponge
[8,3,4,0], context stack [0]) satisfies every hypothesis and the
conditions, hence evaluates to the zero vector. -/
theorem claim_C7_witness :
    1 ≤ ([8] : List F).length ∧
    (∀ j, j < 4 + ([8] : List F).length + ([] : List F).length →
      enforce_tend zeroBuf ⟨[3,5,7,9], [8], []⟩ ⟨[8,3,4,0], [0], []⟩ 1 j = 0) := by
  refine ⟨by decide, ?_⟩
  exact (claim_C7 ⟨[3,5,7,9], [8], []⟩ ⟨[8,3,4,0], [0], []⟩ (by decide) (by decide)
    (by decide)).1.mpr ⟨by decide, by decide, by decide, by decide, by decide⟩

-- Constraint polynomial -------------------------------------------------------------------------

theorem synDivGo_snd (z : F64) (p : List F64) : (synDivGo z p).2 = polyEval p z := by
  induction p with
  | nil => rfl
  | cons c rest ih => simp [synDivGo, polyEval, ih]

theorem synDiv_cons (c : F64) (rest : List F64) (z : F64) :
    synDiv (c :: rest) z = polyEval rest z :: synDiv rest z := by
  simp [synDiv, synDivGo, synDivGo_snd]

theorem synDiv_tail_aux (rest : List F64) (z : F64) :
    List.zipWith (fun a b => a - b) (polyEval rest z :: synDiv rest z)
      ((synDiv rest z).map (fun t => z * t)) = rest := by
  induction rest with
  | nil => rfl
  | cons d rest2 ih =>
    rw [synDiv_cons]
    simp only [List.map_cons, List.zipWith_cons_cons]
    rw [ih]
    congr 1
    simp only [polyEval]
    ring

theorem synDiv_roundtrip (p : List F64) (z : F64) :
    mulXminusZ (synDiv p z) z = subConst p (polyEval p z) := by
  cases p with
  | nil => rfl
  | cons c rest =>
    rw [synDiv_cons]
    simp only [mulXminusZ, List.map_cons, List.zipWith_cons_cons, subConst]
    rw [synDiv_tail_aux]
    congr 1
    simp only [polyEval]
    ring

theorem polyEval_subConst_self (p : List F64) (z : F64) :
    polyEval (subConst p (polyEval p z)) z = 0 := by
  cases p with
  | nil => rfl
  | cons c rest => simp only [subConst, polyEval]; ring

theorem subConst_zero (p : List F64) : subConst p 0 = p := by
  cases p with
  | nil => rfl
  | cons c rest => simp [subConst]

/-- Claim C6: merge_into returns the evaluation P(z); its effect on the
buffer is result := result + cc.constraints * Q with
Q = (P(x) - P(z)) / (x - z): it subtracts P(z) from the zeroth
coefficient, synthetic-divides in place by (x - z), and
multiply-accumulates the quotient into the result with coefficient
cc.constraints.  The last conjunct certifies the quotient: Q * (x - z)
reproduces P with P(z) subtracted from its zeroth coefficient, and the
post-subtraction polynomial evaluates to zero at z (exact division). -/
theorem claim_C6 : ∀ (cp : ConstraintPoly) (result : List F64) (z : F64)
    (cc : CompositionCoefficients),
    (cp.merge_into result z cc).2 = polyEval cp.poly z ∧
    (cp.merge_into result z cc).1
      = mulAcc result (synDiv (subConst cp.poly (polyEval cp.poly z)) z) cc.constraints ∧
    (∀ i, i < result.length → i < cp.poly.length →
      (cp.merge_into result z cc).1.getD i 0
        = result.getD i 0
          + cc.constraints * (synDiv (subConst cp.poly (polyEval cp.poly z)) z).getD i 0) ∧
    mulXminusZ (synDiv (subConst cp.poly (polyEval cp.poly z)) z) z
      = subConst cp.poly (polyEval cp.poly z) ∧
    polyEval (subConst cp.poly (polyEval cp.poly z)) z = 0 := by
  intro cp result z cc
  refine ⟨rfl, rfl, ?_, ?_, polyEval_subConst_self cp.poly z⟩
  · intro i hir hip
    have hq : (synDiv (subConst cp.poly (polyEval cp.poly z)) z).length = cp.poly.length := by
      have h1 : ∀ (q : List F64), (synDiv q z).length = q.length := by
        intro q
        induction q with
        | nil => rfl
        | cons c rest ih => rw [synDiv_cons]; simp [ih]
      have h2 : (subConst cp.poly (polyEval cp.poly z)).length = cp.poly.length := by
        cases hp : cp.poly <;> simp [subConst]
      rw [h1, h2]
    have hm : (cp.merge_into result z cc).1
        = mulAcc result (synDiv (subConst cp.poly (polyEval cp.poly z)) z) cc.constraints := rfl
    rw [hm]
    unfold mulAcc
    rw [List.getD_eq_getElem _ _ (by simp [hq]; omega),
      List.getD_eq_getElem _ _ (by omega),
      List.getD_eq_getElem _ _ (by omega)]
    rw [List.getElem_zipWith]
    ring
  · have hrt := synDiv_roundtrip (subConst cp.poly (polyEval cp.poly z)) z
    rw [polyEval_subConst_self, subConst_zero] at hrt
    exact hrt

/-- Witness for claim C6: the concrete polynomial 5 + 3x at z = 2 with
buffer [100, 200] and coefficient 10: the returned value is 11 and the
buffer becomes [130, 200]. -/
theorem claim_C6_witness :
    ((ConstraintPoly.mk [5, 3]).merge_into [100, 200] 2 ⟨10⟩).2 = polyEval [5, 3] 2 ∧
    (0 < ([100, 200] : List F64).length ∧ 0 < ([5, 3] : List F64).length ∧
      ((ConstraintPoly.mk [5, 3]).merge_into [100, 200] 2 ⟨10⟩).1.getD 0 0
        = ([100, 200] : List F64).getD 0 0
          + (10 : F64) * (synDiv (subConst [5, 3] (polyEval [5, 3] 2)) 2).getD 0 0) := by
  obtain ⟨hA, hB, hC, hD, hE⟩ := claim_C6 ⟨[5, 3]⟩ [100, 200] 2 ⟨10⟩
  exact ⟨hA, by decide, by decide, hC 0 (by decide) (by decide)⟩

/-- Counterexample for claim C9: for the length-16 coefficient vector
c9Poly the construction succeeds, degree() returns 16 - 16/8 = 14, while
the formula (L - 1) * MAX_CONSTRAINT_DEGREE / MAX_CONSTRAINT_DEGREE of
the claim evaluates to 15. -/
theorem claim_C9_counterexample :
    ConstraintPoly.new c9Poly = .ok ⟨c9Poly⟩ ∧
    (ConstraintPoly.mk c9Poly).degree = 14 ∧
    (c9Poly.length - 1) * MAX_CONSTRAINT_DEGREE / MAX_CONSTRAINT_DEGREE = 15 ∧
    (14 : Nat) ≠ 15 := by
  refine ⟨by decide, by decide, by decide, by decide⟩

/-- Claim C9 as amended: construction requires a power-of-two length and
fails otherwise, and degree() returns L - L / MAX_CONSTRAINT_DEGREE,
that is, L - trace_length where trace_length = L / MAX_CONSTRAINT_DEGREE
(the claim as written also equated this with
(L - 1) * MAX_CONSTRAINT_DEGREE / MAX_CONSTRAINT_DEGREE = L - 1, which
the counterexample refutes). -/
theorem claim_C9_amended : ∀ (p : List F64),
    (∀ cp, ConstraintPoly.new p = .ok cp →
      cp.degree = p.length - p.length / MAX_CONSTRAINT_DEGREE) ∧
    ((ConstraintPoly.new p).isOk = true ↔ isPow2 p.length = true) := by
  intro p
  constructor
  · intro cp h
    unfold ConstraintPoly.new at h
    split at h
    · cases h
      rfl
    · cases h
  · unfold ConstraintPoly.new
    constructor
    · intro h
      by_cases hp : isPow2 p.length = true
      · exact hp
      · rw [if_neg hp] at h
        cases h
    · intro h
      rw [if_pos h]
      rfl

/-- Witness for claim C9 as amended: the length-16 vector c9Poly is
accepted and its degree is 16 - 16/8 = 14. -/
theorem claim_C9_amended_witness :
    ConstraintPoly.new c9Poly = .ok ⟨c9Poly⟩ ∧
    (ConstraintPoly.mk c9Poly).degree = c9Poly.length - c9Poly.length / MAX_CONSTRAINT_DEGREE := by
  refine ⟨by decide, (claim_C9_amended c9Poly).1 ⟨c9Poly⟩ (by decide)⟩

-- Stack trace builder ---------------------------------------------------------------------------

theorem getReg_out (regs : List Col) (c r : Nat) (hc : regs.length ≤ c) :
    getReg regs c r = 0 := by
  unfold getReg
  rw [List.getD_eq_getElem?_getD, List.getElem?_eq_none (by omega)]
  rfl

theorem copy_state_depth (st : StackTrace) (step start : Nat) :
    (st.copy_state step start).depth = st.depth := rfl

theorem copy_state_max_depth (st : StackTrace) (step start : Nat) :
    (st.copy_state step start).max_depth = st.max_depth := rfl

theorem copy_state_aux (st : StackTrace) (step start : Nat) :
    (st.copy_state step start).aux_registers = st.aux_registers := rfl

theorem copy_state_sa (st : StackTrace) (step start : Nat) :
    (st.copy_state step start).secret_inputs_a = st.secret_inputs_a := rfl

theorem copy_state_sb (st : StackTrace) (step start : Nat) :
    (st.copy_state step start).secret_inputs_b = st.secret_inputs_b := rfl

theorem copy_state_user_length (st : StackTrace) (step start : Nat) :
    (st.copy_state step start).user_registers.length = st.user_registers.length := by
  simp [StackTrace.copy_state, length_writeCells]

theorem setUser_depth (st : StackTrace) (c r : Nat) (v : F) :
    (st.setUser c r v).depth = st.depth := rfl

theorem setUser_max_depth (st : StackTrace) (c r : Nat) (v : F) :
    (st.setUser c r v).max_depth = st.max_depth := rfl

theorem setUser_aux (st : StackTrace) (c r : Nat) (v : F) :
    (st.setUser c r v).aux_registers = st.aux_registers := rfl

theorem setUser_sa (st : StackTrace) (c r : Nat) (v : F) :
    (st.setUser c r v).secret_inputs_a = st.secret_inputs_a := rfl

theorem setUser_sb (st : StackTrace) (c r : Nat) (v : F) :
    (st.setUser c r v).secret_inputs_b = st.secret_inputs_b := rfl

theorem setUser_user_length (st : StackTrace) (c r : Nat) (v : F) :
    (st.setUser c r v).user_registers.length = st.user_registers.length := by
  simp [StackTrace.setUser, length_setReg]

theorem setAux_depth (st : StackTrace) (c r : Nat) (v : F) :
    (st.setAux c r v).depth = st.depth := rfl

theorem setAux_max_depth (st : StackTrace) (c r : Nat) (v : F) :
    (st.setAux c r v).max_depth = st.max_depth := rfl

theorem setAux_user (st : StackTrace) (c r : Nat) (v : F) :
    (st.setAux c r v).user_registers = st.user_registers := rfl

theorem setAux_sa (st : StackTrace) (c r : Nat) (v : F) :
    (st.setAux c r v).secret_inputs_a = st.secret_inputs_a := rfl

theorem setAux_sb (st : StackTrace) (c r : Nat) (v : F) :
    (st.setAux c r v).secret_inputs_b = st.secret_inputs_b := rfl

theorem setAux_aux_length (st : StackTrace) (c r : Nat) (v : F) :
    (st.setAux c r v).aux_registers.length = st.aux_registers.length := by
  simp [StackTrace.setAux, length_setReg]

theorem shift_left_isOk (st : StackTrace) (step start pos : Nat) :
    (st.shift_left step start pos).isOk = true ↔ pos ≤ st.depth := by
  unfold StackTrace.shift_left
  by_cases h : st.depth < pos
  · rw [if_pos h]
    simp [Except.isOk, Except.toBool]
    omega
  · rw [if_neg h]
    simp [Except.isOk, Except.toBool]
    omega

theorem shift_left_ok (st : StackTrace) (step start pos : Nat) (st2 : StackTrace)
    (h : st.shift_left step start pos = .ok st2) :
    pos ≤ st.depth ∧
    st2.depth = st.depth - pos ∧ st2.max_depth = st.max_depth ∧
    st2.aux_registers = st.aux_registers ∧
    st2.secret_inputs_a = st.secret_inputs_a ∧ st2.secret_inputs_b = st.secret_inputs_b ∧
    st2.user_registers.length = st.user_registers.length := by
  unfold StackTrace.shift_left at h
  by_cases hd : st.depth < pos
  · rw [if_pos hd] at h
    exact Except.noConfusion h
  · rw [if_neg hd] at h
    injection h with h3
    subst h3
    refine ⟨by omega, rfl, rfl, rfl, rfl, rfl, ?_⟩
    simp [length_writeCells]

theorem shift_left_zero_cells (st : StackTrace) (step start pos : Nat) (st2 : StackTrace)
    (h : st.shift_left step start pos = .ok st2) :
    ∀ i, st.depth - pos ≤ i → i < st.depth → i < st.user_registers.length →
      getReg st2.user_registers i (step + 1) = 0 := by
  unfold StackTrace.shift_left at h
  by_cases hd : st.depth < pos
  · rw [if_pos hd] at h
    exact Except.noConfusion h
  · rw [if_neg hd] at h
    injection h with h3
    subst h3
    intro i h1 h2 hb
    show getReg (writeCells st.user_registers _) i (step + 1) = 0
    rw [writeCells_append]
    exact getReg_writeCells_range (writeCells st.user_registers _) (st.depth - pos) pos
      (fun k => k) (step + 1) (fun _ => 0) i h1 (by omega) (fun k hk1 hk2 hk3 => hk3)
      (by rw [length_writeCells]; exact hb)

theorem shift_left_shift_cells (st : StackTrace) (step start pos : Nat) (st2 : StackTrace)
    (h : st.shift_left step start pos = .ok st2) (hsp : pos ≤ start) :
    ∀ i, start ≤ i → i < st.depth → i - pos < st.user_registers.length →
      getReg st2.user_registers (i - pos) (step + 1) = getReg st.user_registers i step := by
  unfold StackTrace.shift_left at h
  by_cases hd : st.depth < pos
  · rw [if_pos hd] at h
    exact Except.noConfusion h
  · rw [if_neg hd] at h
    injection h with h3
    subst h3
    intro i h1 h2 hb
    show getReg (writeCells st.user_registers _) (i - pos) (step + 1) = _
    rw [writeCells_append]
    rw [getReg_writeCells_range_notin _ (st.depth - pos) pos (fun k => k) (step + 1)
      (fun _ => 0) (i - pos) (step + 1) (fun k hk1 hk2 => by intro hcon; simp at hcon; omega)]
    exact getReg_writeCells_range st.user_registers start (st.depth - start)
      (fun k => k - pos) (step + 1) (fun k => getReg st.user_registers k step) i h1 (by omega)
      (fun k hk1 hk2 hk3 => by simp only [] at hk3; omega) hb

theorem shift_right_isOk (st : StackTrace) (step start pos : Nat) :
    (st.shift_right step start pos).isOk = true ↔ st.depth + pos ≤ MAX_USER_STACK_DEPTH := by
  unfold StackTrace.shift_right
  by_cases h : MAX_USER_STACK_DEPTH < st.depth + pos
  · rw [if_pos h]
    simp [Except.isOk, Except.toBool]
    omega
  · rw [if_neg h]
    simp [Except.isOk, Except.toBool]
    omega

theorem shift_right_ok (st : StackTrace) (step start pos : Nat) (st2 : StackTrace)
    (h : st.shift_right step start pos = .ok st2) :
    st.depth + pos ≤ MAX_USER_STACK_DEPTH ∧
    st2.depth = st.depth + pos ∧
    st2.max_depth
      = (if st.max_depth < st.depth + pos then st.max_depth + pos else st.max_depth) ∧
    st2.aux_registers = st.aux_registers ∧
    st2.secret_inputs_a = st.secret_inputs_a ∧ st2.secret_inputs_b = st.secret_inputs_b ∧
    st2.user_registers.length = max st.user_registers.length st2.max_depth := by
  unfold StackTrace.shift_right at h
  by_cases hd : MAX_USER_STACK_DEPTH < st.depth + pos
  · rw [if_pos hd] at h
    exact Except.noConfusion h
  · rw [if_neg hd] at h
    injection h with h3
    subst h3
    refine ⟨by omega, rfl, rfl, rfl, rfl, rfl, ?_⟩
    dsimp only
    rw [length_writeCells]
    by_cases hlen : st.user_registers.length
        < (if st.max_depth < st.depth + pos then st.max_depth + pos else st.max_depth)
    · rw [if_pos hlen]
      simp only [List.length_append, List.length_replicate]
      omega
    · rw [if_neg hlen]
      omega

theorem shift_right_new_cols (st : StackTrace) (step start pos : Nat) (st2 : StackTrace)
    (h : st.shift_right step start pos = .ok st2) :
    ∀ c r, st.user_registers.length ≤ c → r ≠ step + 1 →
      getReg st2.user_registers c r = 0 := by
  unfold StackTrace.shift_right at h
  by_cases hd : MAX_USER_STACK_DEPTH < st.depth + pos
  · rw [if_pos hd] at h
    exact Except.noConfusion h
  · rw [if_neg hd] at h
    injection h with h3
    subst h3
    intro c r hc hr
    show getReg (writeCells _ _) c r = 0
    rw [getReg_writeCells_range_notin _ start (st.depth - start) (fun k => k + pos)
      (step + 1) (fun k => getReg st.user_registers k step) c r
      (fun k hk1 hk2 => by intro hcon; exact hr hcon.2.symm)]
    by_cases hlen : st.user_registers.length
        < (if st.max_depth < st.depth + pos then st.max_depth + pos else st.max_depth)
    · rw [if_pos hlen]
      exact getReg_append_replicate_zero _ _ _ _ hc
    · rw [if_neg hlen]
      exact getReg_out _ _ _ hc

theorem setUser_inv (st : StackTrace) (c r : Nat) (v : F) (h : StackInv st) :
    StackInv (st.setUser c r v) := by
  obtain ⟨h1, h2, h3⟩ := h
  exact ⟨h1, by rw [setUser_user_length]; exact h2, h3⟩

theorem setAux_inv (st : StackTrace) (c r : Nat) (v : F) (h : StackInv st) :
    StackInv (st.setAux c r v) := by
  obtain ⟨h1, h2, h3⟩ := h
  exact ⟨h1, h2, by rw [setAux_aux_length]; exact h3⟩

theorem copy_state_inv (st : StackTrace) (step start : Nat) (h : StackInv st) :
    StackInv (st.copy_state step start) := by
  obtain ⟨h1, h2, h3⟩ := h
  exact ⟨h1, by rw [copy_state_user_length]; exact h2, h3⟩

theorem shift_left_inv (st : StackTrace) (step start pos : Nat) (st2 : StackTrace)
    (h : StackInv st) (he : st.shift_left step start pos = .ok st2) :
    StackInv st2 ∧ st2.max_depth = st.max_depth := by
  obtain ⟨_, hd, hm, ha, _, _, hu⟩ := shift_left_ok _ _ _ _ _ he
  obtain ⟨h1, h2, h3⟩ := h
  exact ⟨⟨by omega, by omega, by rw [ha]; exact h3⟩, hm⟩

theorem shift_right_inv (st : StackTrace) (step start pos : Nat) (st2 : StackTrace)
    (h : StackInv st) (he : st.shift_right step start pos = .ok st2) :
    StackInv st2 ∧ st.max_depth ≤ st2.max_depth := by
  obtain ⟨hcap, hd, hm, ha, _, _, hu⟩ := shift_right_ok _ _ _ _ _ he
  obtain ⟨h1, h2, h3⟩ := h
  by_cases hc : st.max_depth < st.depth + pos
  · rw [if_pos hc] at hm
    exact ⟨⟨by omega, by omega, by rw [ha]; exact h3⟩, by omega⟩
  · rw [if_neg hc] at hm
    exact ⟨⟨by omega, by omega, by rw [ha]; exact h3⟩, by omega⟩

theorem opInv_assert (st : StackTrace) (i : Nat) (st2 : StackTrace) (h : StackInv st)
    (he : st.assert i = .ok st2) : StackInv st2 ∧ st.max_depth ≤ st2.max_depth := by
  simp only [StackTrace.assert] at he
  by_cases h1 : st.depth < 1
  · rw [if_pos h1] at he; exact Except.noConfusion he
  · rw [if_neg h1] at he
    by_cases h2 : st.getUser 0 i = 1
    · rw [if_pos h2] at he
      obtain ⟨hinv, hmax⟩ := shift_left_inv _ _ _ _ _ h he
      exact ⟨hinv, by omega⟩
    · rw [if_neg h2] at he; exact Except.noConfusion he

theorem opInv_push (st : StackTrace) (i : Nat) (v : F) (st2 : StackTrace) (h : StackInv st)
    (he : st.push i v = .ok st2) : StackInv st2 ∧ st.max_depth ≤ st2.max_depth := by
  simp only [StackTrace.push] at he
  cases hsr : st.shift_right i 0 1 with
  | error e => rw [hsr] at he; exact Except.noConfusion he
  | ok st1 =>
    rw [hsr] at he
    injection he with h3
    subst h3
    obtain ⟨hinv1, hmax1⟩ := shift_right_inv _ _ _ _ _ h hsr
    exact ⟨setUser_inv _ _ _ _ hinv1, hmax1⟩

theorem opInv_read (st : StackTrace) (i : Nat) (st2 : StackTrace) (h : StackInv st)
    (he : st.read i = .ok st2) : StackInv st2 ∧ st.max_depth ≤ st2.max_depth := by
  simp only [StackTrace.read] at he
  by_cases h1 : st.secret_inputs_a.length = 0
  · rw [if_pos h1] at he; exact Except.noConfusion he
  · rw [if_neg h1] at he
    cases hsr : st.shift_right i 0 1 with
    | error e => rw [hsr] at he; exact Except.noConfusion he
    | ok st1 =>
      rw [hsr] at he
      injection he with h3
      subst h3
      obtain ⟨hinv1, hmax1⟩ := shift_right_inv _ _ _ _ _ h hsr
      obtain ⟨g1, g2, g3⟩ := setUser_inv st1 0 (i + 1) ((st.secret_inputs_a.getLast?).getD 0) hinv1
      exact ⟨⟨g1, g2, g3⟩, hmax1⟩

theorem opInv_read2 (st : StackTrace) (i : Nat) (st2 : StackTrace) (h : StackInv st)
    (he : st.read2 i = .ok st2) : StackInv st2 ∧ st.max_depth ≤ st2.max_depth := by
  simp only [StackTrace.read2] at he
  by_cases h1 : st.secret_inputs_a.length = 0
  · rw [if_pos h1] at he; exact Except.noConfusion he
  · rw [if_neg h1] at he
    by_cases h2 : st.secret_inputs_b.length = 0
    · rw [if_pos h2] at he; exact Except.noConfusion he
    · rw [if_neg h2] at he
      cases hsr : st.shift_right i 0 2 with
      | error e => rw [hsr] at he; exact Except.noConfusion he
      | ok st1 =>
        rw [hsr] at he
        injection he with h3
        subst h3
        obtain ⟨hinv1, hmax1⟩ := shift_right_inv _ _ _ _ _ h hsr
        obtain ⟨g1, g2, g3⟩ := setUser_inv _ 1 (i + 1) ((st.secret_inputs_a.getLast?).getD 0)
          (setUser_inv st1 0 (i + 1) ((st.secret_inputs_b.getLast?).getD 0) hinv1)
        exact ⟨⟨g1, g2, g3⟩, hmax1⟩

theorem opInv_dup (st : StackTrace) (i : Nat) (st2 : StackTrace) (h : StackInv st)
    (he : st.dup i = .ok st2) : StackInv st2 ∧ st.max_depth ≤ st2.max_depth := by
  simp only [StackTrace.dup] at he
  by_cases h1 : st.depth < 1
  · rw [if_pos h1] at he; exact Except.noConfusion he
  · rw [if_neg h1] at he
    cases hsr : st.shift_right i 0 1 with
    | error e => rw [hsr] at he; exact Except.noConfusion he
    | ok st1 =>
      rw [hsr] at he
      injection he with h3
      subst h3
      obtain ⟨hinv1, hmax1⟩ := shift_right_inv _ _ _ _ _ h hsr
      exact ⟨setUser_inv _ _ _ _ hinv1, hmax1⟩

theorem opInv_dup2 (st : StackTrace) (i : Nat) (st2 : StackTrace) (h : StackInv st)
    (he : st.dup2 i = .ok st2) : StackInv st2 ∧ st.max_depth ≤ st2.max_depth := by
  simp only [StackTrace.dup2] at he
  by_cases h1 : st.depth < 2
  · rw [if_pos h1] at he; exact Except.noConfusion he
  · rw [if_neg h1] at he
    cases hsr : st.shift_right i 0 2 with
    | error e => rw [hsr] at he; exact Except.noConfusion he
    | ok st1 =>
      rw [hsr] at he
      injection he with h3
      subst h3
      obtain ⟨hinv1, hmax1⟩ := shift_right_inv _ _ _ _ _ h hsr
      exact ⟨setUser_inv _ _ _ _ (setUser_inv _ _ _ _ hinv1), hmax1⟩

theorem opInv_dup4 (st : StackTrace) (i : Nat) (st2 : StackTrace) (h : StackInv st)
    (he : st.dup4 i = .ok st2) : StackInv st2 ∧ st.max_depth ≤ st2.max_depth := by
  simp only [StackTrace.dup4] at he
  by_cases h1 : st.depth < 4
  · rw [if_pos h1] at he; exact Except.noConfusion he
  · rw [if_neg h1] at he
    cases hsr : st.shift_right i 0 4 with
    | error e => rw [hsr] at he; exact Except.noConfusion he
    | ok st1 =>
      rw [hsr] at he
      injection he with h3
      subst h3
      obtain ⟨hinv1, hmax1⟩ := shift_right_inv _ _ _ _ _ h hsr
      exact ⟨setUser_inv _ _ _ _ (setUser_inv _ _ _ _ (setUser_inv _ _ _ _
        (setUser_inv _ _ _ _ hinv1))), hmax1⟩

theorem opInv_pad2 (st : StackTrace) (i : Nat) (st2 : StackTrace) (h : StackInv st)
    (he : st.pad2 i = .ok st2) : StackInv st2 ∧ st.max_depth ≤ st2.max_depth := by
  simp only [StackTrace.pad2] at he
  cases hsr : st.shift_right i 0 2 with
  | error e => rw [hsr] at he; exact Except.noConfusion he
  | ok st1 =>
    rw [hsr] at he
    injection he with h3
    subst h3
    obtain ⟨hinv1, hmax1⟩ := shift_right_inv _ _ _ _ _ h hsr
    exact ⟨setUser_inv _ _ _ _ (setUser_inv _ _ _ _ hinv1), hmax1⟩

theorem opInv_drop (st : StackTrace) (i : Nat) (st2 : StackTrace) (h : StackInv st)
    (he : st.drop i = .ok st2) : StackInv st2 ∧ st.max_depth ≤ st2.max_depth := by
  simp only [StackTrace.drop] at he
  by_cases h1 : st.depth < 1
  · rw [if_pos h1] at he; exact Except.noConfusion he
  · rw [if_neg h1] at he
    obtain ⟨hinv, hmax⟩ := shift_left_inv _ _ _ _ _ h he
    exact ⟨hinv, by omega⟩

theorem opInv_drop4 (st : StackTrace) (i : Nat) (st2 : StackTrace) (h : StackInv st)
    (he : st.drop4 i = .ok st2) : StackInv st2 ∧ st.max_depth ≤ st2.max_depth := by
  simp only [StackTrace.drop4] at he
  by_cases h1 : st.depth < 4
  · rw [if_pos h1] at he; exact Except.noConfusion he
  · rw [if_neg h1] at he
    obtain ⟨hinv, hmax⟩ := shift_left_inv _ _ _ _ _ h he
    exact ⟨hinv, by omega⟩

theorem opInv_swap (st : StackTrace) (i : Nat) (st2 : StackTrace) (h : StackInv st)
    (he : st.swap i = .ok st2) : StackInv st2 ∧ st.max_depth ≤ st2.max_depth := by
  simp only [StackTrace.swap] at he
  by_cases h1 : st.depth < 2
  · rw [if_pos h1] at he; exact Except.noConfusion he
  · rw [if_neg h1] at he
    injection he with h3
    subst h3
    exact ⟨copy_state_inv _ _ _ (setUser_inv _ _ _ _ (setUser_inv _ _ _ _ h)), Nat.le_refl _⟩

theorem opInv_swap2 (st : StackTrace) (i : Nat) (st2 : StackTrace) (h : StackInv st)
    (he : st.swap2 i = .ok st2) : StackInv st2 ∧ st.max_depth ≤ st2.max_depth := by
  simp only [StackTrace.swap2] at he
  by_cases h1 : st.depth < 4
  · rw [if_pos h1] at he; exact Except.noConfusion he
  · rw [if_neg h1] at he
    injection he with h3
    subst h3
    exact ⟨copy_state_inv _ _ _ (setUser_inv _ _ _ _ (setUser_inv _ _ _ _ (setUser_inv _ _ _ _
      (setUser_inv _ _ _ _ h)))), Nat.le_refl _⟩

theorem opInv_swap4 (st : StackTrace) (i : Nat) (st2 : StackTrace) (h : StackInv st)
    (he : st.swap4 i = .ok st2) : StackInv st2 ∧ st.max_depth ≤ st2.max_depth := by
  simp only [StackTrace.swap4] at he
  by_cases h1 : st.depth < 8
  · rw [if_pos h1] at he; exact Except.noConfusion he
  · rw [if_neg h1] at he
    injection he with h3
    subst h3
    exact ⟨copy_state_inv _ _ _ (setUser_inv _ _ _ _ (setUser_inv _ _ _ _ (setUser_inv _ _ _ _
      (setUser_inv _ _ _ _ (setUser_inv _ _ _ _ (setUser_inv _ _ _ _ (setUser_inv _ _ _ _
      (setUser_inv _ _ _ _ h)))))))), Nat.le_refl _⟩

theorem opInv_roll4 (st : StackTrace) (i : Nat) (st2 : StackTrace) (h : StackInv st)
    (he : st.roll4 i = .ok st2) : StackInv st2 ∧ st.max_depth ≤ st2.max_depth := by
  simp only [StackTrace.roll4] at he
  by_cases h1 : st.depth < 4
  · rw [if_pos h1] at he; exact Except.noConfusion he
  · rw [if_neg h1] at he
    injection he with h3
    subst h3
    exact ⟨copy_state_inv _ _ _ (setUser_inv _ _ _ _ (setUser_inv _ _ _ _ (setUser_inv _ _ _ _
      (setUser_inv _ _ _ _ h)))), Nat.le_refl _⟩

theorem opInv_roll8 (st : StackTrace) (i : Nat) (st2 : StackTrace) (h : StackInv st)
    (he : st.roll8 i = .ok st2) : StackInv st2 ∧ st.max_depth ≤ st2.max_depth := by
  simp only [StackTrace.roll8] at he
  by_cases h1 : st.depth < 8
  · rw [if_pos h1] at he; exact Except.noConfusion he
  · rw [if_neg h1] at he
    injection he with h3
    subst h3
    exact ⟨copy_state_inv _ _ _ (setUser_inv _ _ _ _ (setUser_inv _ _ _ _ (setUser_inv _ _ _ _
      (setUser_inv _ _ _ _ (setUser_inv _ _ _ _ (setUser_inv _ _ _ _ (setUser_inv _ _ _ _
      (setUser_inv _ _ _ _ h)))))))), Nat.le_refl _⟩

theorem opInv_choose (st : StackTrace) (i : Nat) (st2 : StackTrace) (h : StackInv st)
    (he : st.choose i = .ok st2) : StackInv st2 ∧ st.max_depth ≤ st2.max_depth := by
  simp only [StackTrace.choose] at he
  by_cases h1 : st.depth < 3
  · rw [if_pos h1] at he; exact Except.noConfusion he
  · rw [if_neg h1] at he
    by_cases h2 : st.getUser 2 i = 1
    · rw [if_pos h2] at he
      obtain ⟨hinv, hmax⟩ := shift_left_inv _ _ _ _ _ (setUser_inv _ _ _ _ h) he
      exact ⟨hinv, Nat.le_of_eq hmax.symm⟩
    · rw [if_neg h2] at he
      by_cases h3 : st.getUser 2 i = 0
      · rw [if_pos h3] at he
        obtain ⟨hinv, hmax⟩ := shift_left_inv _ _ _ _ _ (setUser_inv _ _ _ _ h) he
        exact ⟨hinv, Nat.le_of_eq hmax.symm⟩
      · rw [if_neg h3] at he; exact Except.noConfusion he

theorem opInv_choose2 (st : StackTrace) (i : Nat) (st2 : StackTrace) (h : StackInv st)
    (he : st.choose2 i = .ok st2) : StackInv st2 ∧ st.max_depth ≤ st2.max_depth := by
  simp only [StackTrace.choose2] at he
  by_cases h1 : st.depth < 6
  · rw [if_pos h1] at he; exact Except.noConfusion he
  · rw [if_neg h1] at he
    by_cases h2 : st.getUser 4 i = 1
    · rw [if_pos h2] at he
      obtain ⟨hinv, hmax⟩ :=
        shift_left_inv _ _ _ _ _ (setUser_inv _ _ _ _ (setUser_inv _ _ _ _ h)) he
      exact ⟨hinv, Nat.le_of_eq hmax.symm⟩
    · rw [if_neg h2] at he
      by_cases h3 : st.getUser 4 i = 0
      · rw [if_pos h3] at he
        obtain ⟨hinv, hmax⟩ :=
          shift_left_inv _ _ _ _ _ (setUser_inv _ _ _ _ (setUser_inv _ _ _ _ h)) he
        exact ⟨hinv, Nat.le_of_eq hmax.symm⟩
      · rw [if_neg h3] at he; exact Except.noConfusion he

theorem opInv_add (st : StackTrace) (i : Nat) (st2 : StackTrace) (h : StackInv st)
    (he : st.add i = .ok st2) : StackInv st2 ∧ st.max_depth ≤ st2.max_depth := by
  simp only [StackTrace.add] at he
  by_cases h1 : st.depth < 2
  · rw [if_pos h1] at he; exact Except.noConfusion he
  · rw [if_neg h1] at he
    obtain ⟨hinv, hmax⟩ := shift_left_inv _ _ _ _ _ (setUser_inv _ _ _ _ h) he
    exact ⟨hinv, Nat.le_of_eq hmax.symm⟩

theorem opInv_mul (st : StackTrace) (i : Nat) (st2 : StackTrace) (h : StackInv st)
    (he : st.mul i = .ok st2) : StackInv st2 ∧ st.max_depth ≤ st2.max_depth := by
  simp only [StackTrace.mul] at he
  by_cases h1 : st.depth < 2
  · rw [if_pos h1] at he; exact Except.noConfusion he
  · rw [if_neg h1] at he
    obtain ⟨hinv, hmax⟩ := shift_left_inv _ _ _ _ _ (setUser_inv _ _ _ _ h) he
    exact ⟨hinv, Nat.le_of_eq hmax.symm⟩

theorem opInv_inv (st : StackTrace) (i : Nat) (st2 : StackTrace) (h : StackInv st)
    (he : st.inv i = .ok st2) : StackInv st2 ∧ st.max_depth ≤ st2.max_depth := by
  simp only [StackTrace.inv] at he
  by_cases h1 : st.depth < 1
  · rw [if_pos h1] at he; exact Except.noConfusion he
  · rw [if_neg h1] at he
    by_cases h2 : st.getUser 0 i = 0
    · rw [if_pos h2] at he; exact Except.noConfusion he
    · rw [if_neg h2] at he
      injection he with h3
      subst h3
      exact ⟨copy_state_inv _ _ _ (setUser_inv _ _ _ _ h), Nat.le_refl _⟩

theorem opInv_neg (st : StackTrace) (i : Nat) (st2 : StackTrace) (h : StackInv st)
    (he : st.neg i = .ok st2) : StackInv st2 ∧ st.max_depth ≤ st2.max_depth := by
  simp only [StackTrace.neg] at he
  by_cases h1 : st.depth < 1
  · rw [if_pos h1] at he; exact Except.noConfusion he
  · rw [if_neg h1] at he
    injection he with h3
    subst h3
    exact ⟨copy_state_inv _ _ _ (setUser_inv _ _ _ _ h), Nat.le_refl _⟩

theorem opInv_not (st : StackTrace) (i : Nat) (st2 : StackTrace) (h : StackInv st)
    (he : st.not i = .ok st2) : StackInv st2 ∧ st.max_depth ≤ st2.max_depth := by
  simp only [StackTrace.not] at he
  by_cases h1 : st.depth < 1
  · rw [if_pos h1] at he; exact Except.noConfusion he
  · rw [if_neg h1] at he
    by_cases h2 : st.getUser 0 i = 0 ∨ st.getUser 0 i = 1
    · rw [if_pos h2] at he
      injection he with h3
      subst h3
      exact ⟨copy_state_inv _ _ _ (setUser_inv _ _ _ _ h), Nat.le_refl _⟩
    · rw [if_neg h2] at he; exact Except.noConfusion he

theorem opInv_eq (st : StackTrace) (i : Nat) (st2 : StackTrace) (h : StackInv st)
    (he : st.eq i = .ok st2) : StackInv st2 ∧ st.max_depth ≤ st2.max_depth := by
  simp only [StackTrace.eq] at he
  by_cases h1 : st.depth < 2
  · rw [if_pos h1] at he; exact Except.noConfusion he
  · rw [if_neg h1] at he
    by_cases h2 : st.getUser 0 i = st.getUser 1 i
    · rw [if_pos h2] at he
      obtain ⟨hinv, hmax⟩ :=
        shift_left_inv _ _ _ _ _ (setUser_inv _ _ _ _ (setAux_inv _ _ _ _ h)) he
      exact ⟨hinv, Nat.le_of_eq hmax.symm⟩
    · rw [if_neg h2] at he
      obtain ⟨hinv, hmax⟩ :=
        shift_left_inv _ _ _ _ _ (setUser_inv _ _ _ _ (setAux_inv _ _ _ _ h)) he
      exact ⟨hinv, Nat.le_of_eq hmax.symm⟩

set_option maxHeartbeats 1000000 in
theorem opInv_cmp (st : StackTrace) (i : Nat) (st2 : StackTrace) (h : StackInv st)
    (he : st.cmp i = .ok st2) : StackInv st2 ∧ st.max_depth ≤ st2.max_depth := by
  simp only [StackTrace.cmp] at he
  by_cases h1 : st.depth < 8
  · rw [if_pos h1] at he; exact Except.noConfusion he
  · rw [if_neg h1] at he
    by_cases h2 : st.secret_inputs_a.length = 0
    · rw [if_pos h2] at he; exact Except.noConfusion he
    · rw [if_neg h2] at he
      by_cases h3 : st.secret_inputs_b.length = 0
      · rw [if_pos h3] at he; exact Except.noConfusion he
      · rw [if_neg h3] at he
        by_cases h4 : ¬((st.secret_inputs_a.getLast?).getD 0 = 0 ∨
            (st.secret_inputs_a.getLast?).getD 0 = 1)
        · rw [if_pos h4] at he; exact Except.noConfusion he
        · rw [if_neg h4] at he
          by_cases h5 : ¬((st.secret_inputs_b.getLast?).getD 0 = 0 ∨
              (st.secret_inputs_b.getLast?).getD 0 = 1)
          · rw [if_pos h5] at he; exact Except.noConfusion he
          · rw [if_neg h5] at he
            injection he with h6
            subst h6
            obtain ⟨g1, g2, g3⟩ := copy_state_inv _ _ _ (setUser_inv _ _ _ _ (setUser_inv _ _ _ _
              (setUser_inv _ _ _ _ (setUser_inv _ _ _ _ (setUser_inv _ _ _ _
              (setUser_inv _ _ _ _ h))))))
            exact ⟨⟨g1, g2, g3⟩, Nat.le_refl _⟩

theorem opInv_hashr (st : StackTrace) (i : Nat) (st2 : StackTrace) (h : StackInv st)
    (he : st.hashr i = .ok st2) : StackInv st2 ∧ st.max_depth ≤ st2.max_depth := by
  simp only [StackTrace.hashr] at he
  by_cases h1 : st.depth < HASH_STATE_WIDTH
  · rw [if_pos h1] at he; exact Except.noConfusion he
  · rw [if_neg h1] at he
    injection he with h3
    subst h3
    exact ⟨copy_state_inv _ _ _ (setUser_inv _ _ _ _ (setUser_inv _ _ _ _ (setUser_inv _ _ _ _
      (setUser_inv _ _ _ _ (setUser_inv _ _ _ _ (setUser_inv _ _ _ _ h)))))), Nat.le_refl _⟩

theorem opInv_noop (st : StackTrace) (i : Nat) (h : StackInv st) :
    StackInv (st.noop i) ∧ (st.noop i).max_depth = st.max_depth :=
  ⟨copy_state_inv _ _ _ h, rfl⟩

theorem exceptMap_ok {α β : Type} (e : Except String α) (f : α → β) (b : β)
    (h : e.map f = .ok b) : ∃ a, e = .ok a ∧ f a = b := by
  cases e with
  | error e2 => simp [Except.map] at h
  | ok a =>
    refine ⟨a, rfl, ?_⟩
    simpa [Except.map] using h

theorem stepOp_inv (program : List F) (st : StackTrace) (i : Nat) (st2 : StackTrace)
    (i2 : Nat) (h : StackInv st) (he : stepOp program st i = .ok (st2, i2)) :
    StackInv st2 ∧ st.max_depth ≤ st2.max_depth ∧ i < i2 := by
  unfold stepOp stepOpc at he
  by_cases hk0 : toOpcode (program.getD i 0) = opcodes.BEGIN
  · rw [if_pos hk0] at he
    injection he with h3
    injection h3 with hA hB
    subst hA hB
    obtain ⟨hI, hM⟩ := opInv_noop st i h
    exact ⟨hI, Nat.le_of_eq hM.symm, by omega⟩
  rw [if_neg hk0] at he
  by_cases hk1 : toOpcode (program.getD i 0) = opcodes.NOOP
  · rw [if_pos hk1] at he
    injection he with h3
    injection h3 with hA hB
    subst hA hB
    obtain ⟨hI, hM⟩ := opInv_noop st i h
    exact ⟨hI, Nat.le_of_eq hM.symm, by omega⟩
  rw [if_neg hk1] at he
  by_cases hk2 : toOpcode (program.getD i 0) = opcodes.ASSERT
  · rw [if_pos hk2] at he
    obtain ⟨s, hs, hfs⟩ := exceptMap_ok _ _ _ he
    injection hfs with hA hB
    subst hA hB
    obtain ⟨hI, hM⟩ := opInv_assert st i s h hs
    exact ⟨hI, hM, by omega⟩
  rw [if_neg hk2] at he
  by_cases hk3 : toOpcode (program.getD i 0) = opcodes.PUSH
  · rw [if_pos hk3] at he
    cases hp : st.push i (program.getD (i + 1) 0) with
    | error e => rw [hp] at he; exact Except.noConfusion he
    | ok st1 =>
      rw [hp] at he
      injection he with h3
      injection h3 with hA hB
      subst hA hB
      obtain ⟨hI1, hM1⟩ := opInv_push st i _ st1 h hp
      obtain ⟨hI2, hM2⟩ := opInv_noop st1 (i + 1) hI1
      exact ⟨hI2, by rw [hM2]; exact hM1, by omega⟩
  rw [if_neg hk3] at he
  by_cases hk4 : toOpcode (program.getD i 0) = opcodes.READ
  · rw [if_pos hk4] at he
    obtain ⟨s, hs, hfs⟩ := exceptMap_ok _ _ _ he
    injection hfs with hA hB
    subst hA hB
    obtain ⟨hI, hM⟩ := opInv_read st i s h hs
    exact ⟨hI, hM, by omega⟩
  rw [if_neg hk4] at he
  by_cases hk5 : toOpcode (program.getD i 0) = opcodes.READ2
  · rw [if_pos hk5] at he
    obtain ⟨s, hs, hfs⟩ := exceptMap_ok _ _ _ he
    injection hfs with hA hB
    subst hA hB
    obtain ⟨hI, hM⟩ := opInv_read2 st i s h hs
    exact ⟨hI, hM, by omega⟩
  rw [if_neg hk5] at he
  by_cases hk6 : toOpcode (program.getD i 0) = opcodes.DUP
  · rw [if_pos hk6] at he
    obtain ⟨s, hs, hfs⟩ := exceptMap_ok _ _ _ he
    injection hfs with hA hB
    subst hA hB
    obtain ⟨hI, hM⟩ := opInv_dup st i s h hs
    exact ⟨hI, hM, by omega⟩
  rw [if_neg hk6] at he
  by_cases hk7 : toOpcode (program.getD i 0) = opcodes.DUP2
  · rw [if_pos hk7] at he
    obtain ⟨s, hs, hfs⟩ := exceptMap_ok _ _ _ he
    injection hfs with hA hB
    subst hA hB
    obtain ⟨hI, hM⟩ := opInv_dup2 st i s h hs
    exact ⟨hI, hM, by omega⟩
  rw [if_neg hk7] at he
  by_cases hk8 : toOpcode (program.getD i 0) = opcodes.DUP4
  · rw [if_pos hk8] at he
    obtain ⟨s, hs, hfs⟩ := exceptMap_ok _ _ _ he
    injection hfs with hA hB
    subst hA hB
    obtain ⟨hI, hM⟩ := opInv_dup4 st i s h hs
    exact ⟨hI, hM, by omega⟩
  rw [if_neg hk8] at he
  by_cases hk9 : toOpcode (program.getD i 0) = opcodes.PAD2
  · rw [if_pos hk9] at he
    obtain ⟨s, hs, hfs⟩ := exceptMap_ok _ _ _ he
    injection hfs with hA hB
    subst hA hB
    obtain ⟨hI, hM⟩ := opInv_pad2 st i s h hs
    exact ⟨hI, hM, by omega⟩
  rw [if_neg hk9] at he
  by_cases hk10 : toOpcode (program.getD i 0) = opcodes.DROP
  · rw [if_pos hk10] at he
    obtain ⟨s, hs, hfs⟩ := exceptMap_ok _ _ _ he
    injection hfs with hA hB
    subst hA hB
    obtain ⟨hI, hM⟩ := opInv_drop st i s h hs
    exact ⟨hI, hM, by omega⟩
  rw [if_neg hk10] at he
  by_cases hk11 : toOpcode (program.getD i 0) = opcodes.DROP4
  · rw [if_pos hk11] at he
    obtain ⟨s, hs, hfs⟩ := exceptMap_ok _ _ _ he
    injection hfs with hA hB
    subst hA hB
    obtain ⟨hI, hM⟩ := opInv_drop4 st i s h hs
    exact ⟨hI, hM, by omega⟩
  rw [if_neg hk11] at he
  by_cases hk12 : toOpcode (program.getD i 0) = opcodes.SWAP
  · rw [if_pos hk12] at he
    obtain ⟨s, hs, hfs⟩ := exceptMap_ok _ _ _ he
    injection hfs with hA hB
    subst hA hB
    obtain ⟨hI, hM⟩ := opInv_swap st i s h hs
    exact ⟨hI, hM, by omega⟩
  rw [if_neg hk12] at he
  by_cases hk13 : toOpcode (program.getD i 0) = opcodes.SWAP2
  · rw [if_pos hk13] at he
    obtain ⟨s, hs, hfs⟩ := exceptMap_ok _ _ _ he
    injection hfs with hA hB
    subst hA hB
    obtain ⟨hI, hM⟩ := opInv_swap2 st i s h hs
    exact ⟨hI, hM, by omega⟩
  rw [if_neg hk13] at he
  by_cases hk14 : toOpcode (program.getD i 0) = opcodes.SWAP4
  · rw [if_pos hk14] at he
    obtain ⟨s, hs, hfs⟩ := exceptMap_ok _ _ _ he
    injection hfs with hA hB
    subst hA hB
    obtain ⟨hI, hM⟩ := opInv_swap4 st i s h hs
    exact ⟨hI, hM, by omega⟩
  rw [if_neg hk14] at he
  by_cases hk15 : toOpcode (program.getD i 0) = opcodes.ROLL4
  · rw [if_pos hk15] at he
    obtain ⟨s, hs, hfs⟩ := exceptMap_ok _ _ _ he
    injection hfs with hA hB
    subst hA hB
    obtain ⟨hI, hM⟩ := opInv_roll4 st i s h hs
    exact ⟨hI, hM, by omega⟩
  rw [if_neg hk15] at he
  by_cases hk16 : toOpcode (program.getD i 0) = opcodes.ROLL8
  · rw [if_pos hk16] at he
    obtain ⟨s, hs, hfs⟩ := exceptMap_ok _ _ _ he
    injection hfs with hA hB
    subst hA hB
    obtain ⟨hI, hM⟩ := opInv_roll8 st i s h hs
    exact ⟨hI, hM, by omega⟩
  rw [if_neg hk16] at he
  by_cases hk17 : toOpcode (program.getD i 0) = opcodes.CHOOSE
  · rw [if_pos hk17] at he
    obtain ⟨s, hs, hfs⟩ := exceptMap_ok _ _ _ he
    injection hfs with hA hB
    subst hA hB
    obtain ⟨hI, hM⟩ := opInv_choose st i s h hs
    exact ⟨hI, hM, by omega⟩
  rw [if_neg hk17] at he
  by_cases hk18 : toOpcode (program.getD i 0) = opcodes.CHOOSE2
  · rw [if_pos hk18] at he
    obtain ⟨s, hs, hfs⟩ := exceptMap_ok _ _ _ he
    injection hfs with hA hB
    subst hA hB
    obtain ⟨hI, hM⟩ := opInv_choose2 st i s h hs
    exact ⟨hI, hM, by omega⟩
  rw [if_neg hk18] at he
  by_cases hk19 : toOpcode (program.getD i 0) = opcodes.ADD
  · rw [if_pos hk19] at he
    obtain ⟨s, hs, hfs⟩ := exceptMap_ok _ _ _ he
    injection hfs with hA hB
    subst hA hB
    obtain ⟨hI, hM⟩ := opInv_add st i s h hs
    exact ⟨hI, hM, by omega⟩
  rw [if_neg hk19] at he
  by_cases hk20 : toOpcode (program.getD i 0) = opcodes.MUL
  · rw [if_pos hk20] at he
    obtain ⟨s, hs, hfs⟩ := exceptMap_ok _ _ _ he
    injection hfs with hA hB
    subst hA hB
    obtain ⟨hI, hM⟩ := opInv_mul st i s h hs
    exact ⟨hI, hM, by omega⟩
  rw [if_neg hk20] at he
  by_cases hk21 : toOpcode (program.getD i 0) = opcodes.INV
  · rw [if_pos hk21] at he
    obtain ⟨s, hs, hfs⟩ := exceptMap_ok _ _ _ he
    injection hfs with hA hB
    subst hA hB
    obtain ⟨hI, hM⟩ := opInv_inv st i s h hs
    exact ⟨hI, hM, by omega⟩
  rw [if_neg hk21] at he
  by_cases hk22 : toOpcode (program.getD i 0) = opcodes.NEG
  · rw [if_pos hk22] at he
    obtain ⟨s, hs, hfs⟩ := exceptMap_ok _ _ _ he
    injection hfs with hA hB
    subst hA hB
    obtain ⟨hI, hM⟩ := opInv_neg st i s h hs
    exact ⟨hI, hM, by omega⟩
  rw [if_neg hk22] at he
  by_cases hk23 : toOpcode (program.getD i 0) = opcodes.NOT
  · rw [if_pos hk23] at he
    obtain ⟨s, hs, hfs⟩ := exceptMap_ok _ _ _ he
    injection hfs with hA hB
    subst hA hB
    obtain ⟨hI, hM⟩ := opInv_not st i s h hs
    exact ⟨hI, hM, by omega⟩
  rw [if_neg hk23] at he
  by_cases hk24 : toOpcode (program.getD i 0) = opcodes.EQ
  · rw [if_pos hk24] at he
    obtain ⟨s, hs, hfs⟩ := exceptMap_ok _ _ _ he
    injection hfs with hA hB
    subst hA hB
    obtain ⟨hI, hM⟩ := opInv_eq st i s h hs
    exact ⟨hI, hM, by omega⟩
  rw [if_neg hk24] at he
  by_cases hk25 : toOpcode (program.getD i 0) = opcodes.CMP
  · rw [if_pos hk25] at he
    obtain ⟨s, hs, hfs⟩ := exceptMap_ok _ _ _ he
    injection hfs with hA hB
    subst hA hB
    obtain ⟨hI, hM⟩ := opInv_cmp st i s h hs
    exact ⟨hI, hM, by omega⟩
  rw [if_neg hk25] at he
  by_cases hk26 : toOpcode (program.getD i 0) = opcodes.HASHR
  · rw [if_pos hk26] at he
    obtain ⟨s, hs, hfs⟩ := exceptMap_ok _ _ _ he
    injection hfs with hA hB
    subst hA hB
    obtain ⟨hI, hM⟩ := opInv_hashr st i s h hs
    exact ⟨hI, hM, by omega⟩
  rw [if_neg hk26] at he
  exact Except.noConfusion he

theorem runLoop_inv (program : List F) (tlen : Nat) (fuel : Nat) :
    ∀ (i : Nat) (st st2 : StackTrace), StackInv st →
      runLoop program tlen fuel i st = .ok st2 →
      StackInv st2 ∧ st.max_depth ≤ st2.max_depth := by
  induction fuel with
  | zero =>
    intro i st st2 h he
    unfold runLoop at he
    by_cases hc : i < tlen - 1
    · rw [if_pos hc] at he; exact Except.noConfusion he
    · rw [if_neg hc] at he
      injection he with h3
      subst h3
      exact ⟨h, Nat.le_refl _⟩
  | succ fuel ih =>
    intro i st st2 h he
    unfold runLoop at he
    by_cases hc : i < tlen - 1
    · rw [if_pos hc] at he
      cases hso : stepOp program st i with
      | error e => rw [hso] at he; exact Except.noConfusion he
      | ok p =>
        rw [hso] at he
        obtain ⟨st3, i3⟩ := p
        obtain ⟨hinv3, hmax3, _⟩ := stepOp_inv _ _ _ _ _ h hso
        obtain ⟨hinv2, hmax2⟩ := ih i3 st3 st2 hinv3 he
        exact ⟨hinv2, Nat.le_trans hmax3 hmax2⟩
    · rw [if_neg hc] at he
      injection he with h3
      subst h3
      exact ⟨h, Nat.le_refl _⟩

theorem runDepths_bounded (program : List F) (tlen : Nat) (fuel : Nat) :
    ∀ (i : Nat) (st st2 : StackTrace) (ds : List Nat), StackInv st →
      runLoop program tlen fuel i st = .ok st2 →
      runDepths program tlen fuel i st = .ok ds →
      ∀ d ∈ ds, d ≤ st2.max_depth := by
  induction fuel with
  | zero =>
    intro i st st2 ds h he hd
    unfold runLoop at he
    unfold runDepths at hd
    by_cases hc : i < tlen - 1
    · rw [if_pos hc] at he; exact Except.noConfusion he
    · rw [if_neg hc] at he hd
      injection he with h3
      subst h3
      injection hd with h4
      subst h4
      intro d hdm
      rcases List.mem_singleton.mp hdm with rfl
      exact h.1
  | succ fuel ih =>
    intro i st st2 ds h he hd
    unfold runLoop at he
    unfold runDepths at hd
    by_cases hc : i < tlen - 1
    · rw [if_pos hc] at he hd
      cases hso : stepOp program st i with
      | error e => rw [hso] at he; exact Except.noConfusion he
      | ok p =>
        rw [hso] at he hd
        obtain ⟨st3, i3⟩ := p
        obtain ⟨hinv3, hmax3, _⟩ := stepOp_inv _ _ _ _ _ h hso
        obtain ⟨hinv2, hmax2⟩ := runLoop_inv program tlen fuel i3 st3 st2 hinv3 he
        obtain ⟨ds2, hds2, hmap⟩ := exceptMap_ok _ _ _ hd
        subst hmap
        intro d hdm
        rcases List.mem_cons.mp hdm with rfl | hdm2
        · exact Nat.le_trans (Nat.le_trans h.1 hmax3) hmax2
        · exact ih i3 st3 st2 ds2 hinv3 he hds2 d hdm2
    · rw [if_neg hc] at he hd
      injection he with h3
      subst h3
      injection hd with h4
      subst h4
      intro d hdm
      rcases List.mem_singleton.mp hdm with rfl
      exact h.1

theorem initStack_inv (inputs : ProgramInputs) : StackInv (initStack inputs) := by
  refine ⟨Nat.le_refl _, ?_, by simp [initStack, AUX_WIDTH]⟩
  show inputs.public.length ≤ ((List.range _).map _).length
  simp only [List.length_map, List.length_range]
  exact Nat.le_max_left _ _

theorem execute_ok (program : List F) (inputs : ProgramInputs) (ef : Nat) (cols : List Col)
    (h : execute program inputs ef = .ok cols) :
    executeMain program inputs = .ok cols := by
  unfold execute at h
  by_cases c1 : ¬(1 < program.length)
  · rw [if_pos c1] at h; exact Except.noConfusion h
  rw [if_neg c1] at h
  by_cases c2 : ¬(isPow2 program.length = true)
  · rw [if_pos c2] at h; exact Except.noConfusion h
  rw [if_neg c2] at h
  by_cases c3 : ¬(program.getD 0 0 = (opcodes.BEGIN : Nat))
  · rw [if_pos c3] at h; exact Except.noConfusion h
  rw [if_neg c3] at h
  by_cases c4 : ¬(program.getD (program.length - 1) 0 = (opcodes.NOOP : Nat))
  · rw [if_pos c4] at h; exact Except.noConfusion h
  rw [if_neg c4] at h
  by_cases c5 : ¬(isPow2 ef = true)
  · rw [if_pos c5] at h; exact Except.noConfusion h
  rw [if_neg c5] at h
  exact h

theorem shift_left_other_cells (st : StackTrace) (step start pos : Nat) (st2 : StackTrace)
    (h : st.shift_left step start pos = .ok st2) (hsp : pos ≤ start) (hs : start ≤ st.depth) :
    ∀ c r, (r ≠ step + 1 ∨ c < start - pos ∨ st.depth ≤ c) →
      getReg st2.user_registers c r = getReg st.user_registers c r := by
  unfold StackTrace.shift_left at h
  by_cases hd : st.depth < pos
  · rw [if_pos hd] at h
    exact Except.noConfusion h
  · rw [if_neg hd] at h
    injection h with h3
    subst h3
    intro c r hcr
    show getReg (writeCells st.user_registers _) c r = _
    rw [writeCells_append]
    rw [getReg_writeCells_range_notin _ (st.depth - pos) pos (fun k => k) (step + 1)
      (fun _ => 0) c r (fun k hk1 hk2 => by
        intro hcon
        simp at hcon
        omega)]
    exact getReg_writeCells_range_notin _ start (st.depth - start) (fun k => k - pos)
      (step + 1) (fun k => getReg st.user_registers k step) c r (fun k hk1 hk2 => by
        intro hcon
        simp at hcon
        omega)

theorem eq_branch_spec (st : StackTrace) (step : Nat) (va vu : F)
    (hi1 : st.depth ≤ st.max_depth) (hi2 : st.max_depth ≤ st.user_registers.length)
    (hi3 : st.aux_registers.length = AUX_WIDTH) (hd : 2 ≤ st.depth) (st2 : StackTrace)
    (hE : ((st.setAux 0 step va).setUser 0 (step + 1) vu).shift_left step 2 1 = .ok st2) :
    getReg st2.aux_registers 0 step = va ∧
    st2.getUser 0 (step + 1) = vu ∧
    (∀ j, 1 ≤ j → j + 1 < st.depth → st2.getUser j (step + 1) = st.getUser (j + 1) step) ∧
    st2.getUser (st.depth - 1) (step + 1) = 0 ∧
    st2.depth = st.depth - 1 := by
  have hdw : ((st.setAux 0 step va).setUser 0 (step + 1) vu).depth = st.depth := rfl
  have hul : ((st.setAux 0 step va).setUser 0 (step + 1) vu).user_registers.length
      = st.user_registers.length := by
    show (setReg st.user_registers 0 (step + 1) vu).length = _
    exact length_setReg _ _ _ _
  obtain ⟨_, hdep, hmax, haux, _, _, _⟩ := shift_left_ok _ _ _ _ _ hE
  refine ⟨?_, ?_, ?_, ?_, ?_⟩
  · rw [haux]
    show getReg (setReg st.aux_registers 0 step va) 0 step = va
    rw [getReg_setReg]
    rw [if_pos ⟨rfl, rfl, by rw [hi3]; decide⟩]
  · have ho := shift_left_other_cells _ _ _ _ _ hE (by omega) (by omega) 0 (step + 1)
      (Or.inr (Or.inl (by omega)))
    show getReg st2.user_registers 0 (step + 1) = vu
    rw [ho]
    show getReg (setReg st.user_registers 0 (step + 1) vu) 0 (step + 1) = vu
    rw [getReg_setReg]
    rw [if_pos ⟨rfl, rfl, by omega⟩]
  · intro j hj1 hj2
    have hsc := shift_left_shift_cells _ _ _ _ _ hE (by omega) (j + 1) (by omega)
      (by omega) (by omega)
    show getReg st2.user_registers j (step + 1) = getReg st.user_registers (j + 1) step
    have hj11 : j + 1 - 1 = j := rfl
    rw [hj11] at hsc
    rw [hsc]
    show getReg (setReg st.user_registers 0 (step + 1) vu) (j + 1) step = _
    rw [getReg_setReg]
    rw [if_neg (fun hcon => by omega)]
  · have hz := shift_left_zero_cells _ _ _ _ _ hE (st.depth - 1) (by omega) (by omega)
      (by omega)
    exact hz
  · rw [hdep, hdw]

theorem eq_spec (st : StackTrace) (step : Nat) (h : StackInv st) (hd : 2 ≤ st.depth) :
    ∃ st2, st.eq step = .ok st2 ∧
      getReg st2.aux_registers 0 step
        = (if st.getUser 0 step = st.getUser 1 step then 1
           else (st.getUser 0 step - st.getUser 1 step)⁻¹) ∧
      st2.getUser 0 (step + 1)
        = (if st.getUser 0 step = st.getUser 1 step then 1 else 0) ∧
      (∀ j, 1 ≤ j → j + 1 < st.depth → st2.getUser j (step + 1) = st.getUser (j + 1) step) ∧
      st2.getUser (st.depth - 1) (step + 1) = 0 ∧
      st2.depth = st.depth - 1 := by
  obtain ⟨hi1, hi2, hi3⟩ := h
  simp only [StackTrace.eq]
  rw [if_neg (by omega)]
  by_cases hxy : st.getUser 0 step = st.getUser 1 step
  · rw [if_pos hxy]
    cases hE : ((st.setAux 0 step 1).setUser 0 (step + 1) 1).shift_left step 2 1 with
    | error e =>
      have hOk := (shift_left_isOk ((st.setAux 0 step 1).setUser 0 (step + 1) 1)
        step 2 1).mpr (by show 1 ≤ st.depth; omega)
      rw [hE] at hOk
      simp [Except.isOk, Except.toBool] at hOk
    | ok st2 =>
      obtain ⟨ha, hu, hs, hz, hdep⟩ := eq_branch_spec st step 1 1 hi1 hi2 hi3 hd st2 hE
      exact ⟨st2, rfl, by rw [ha, if_pos hxy], by rw [hu, if_pos hxy], hs, hz, hdep⟩
  · rw [if_neg hxy]
    cases hE : ((st.setAux 0 step (st.getUser 0 step - st.getUser 1 step)⁻¹).setUser 0
        (step + 1) 0).shift_left step 2 1 with
    | error e =>
      have hOk := (shift_left_isOk ((st.setAux 0 step
        (st.getUser 0 step - st.getUser 1 step)⁻¹).setUser 0 (step + 1) 0)
        step 2 1).mpr (by show 1 ≤ st.depth; omega)
      rw [hE] at hOk
      simp [Except.isOk, Except.toBool] at hOk
    | ok st2 =>
      obtain ⟨ha, hu, hs, hz, hdep⟩ := eq_branch_spec st step
        (st.getUser 0 step - st.getUser 1 step)⁻¹ 0 hi1 hi2 hi3 hd st2 hE
      exact ⟨st2, rfl, by rw [ha, if_neg hxy], by rw [hu, if_neg hxy], hs, hz, hdep⟩

/-- Claim C4: at every step with user stack depth at least 2, EQ writes
aux[0] at the current step to 1 when the top two values agree and to the
inverse of their difference otherwise, writes user[0] at the next step
to 1 or 0 accordingly, and shifts the rest of the stack left by one
(depth decreases by 1); concretely, from stack [3,3,4,5] it yields
user[0] = 1 with aux[0] = 1, and from [1,4,5] it yields user[0] = 0 with
aux[0] equal to the inverse of (1 - 4). -/
theorem claim_C4 :
    (∀ (st : StackTrace) (step : Nat), StackInv st → 2 ≤ st.depth →
      ∃ st2, st.eq step = .ok st2 ∧
        getReg st2.aux_registers 0 step
          = (if st.getUser 0 step = st.getUser 1 step then 1
             else (st.getUser 0 step - st.getUser 1 step)⁻¹) ∧
        st2.getUser 0 (step + 1)
          = (if st.getUser 0 step = st.getUser 1 step then 1 else 0) ∧
        (∀ j, 1 ≤ j → j + 1 < st.depth →
          st2.getUser j (step + 1) = st.getUser (j + 1) step) ∧
        st2.getUser (st.depth - 1) (step + 1) = 0 ∧
        st2.depth = st.depth - 1) ∧
    ((initStack ⟨[3, 3, 4, 5], [], []⟩).eq 0).map
      (fun s => (getReg s.aux_registers 0 0, s.getUser 0 1, s.getUser 1 1, s.getUser 2 1,
        s.depth)) = .ok (1, 1, 4, 5, 3) ∧
    ((initStack ⟨[1, 4, 5], [], []⟩).eq 0).map
      (fun s => (s.getUser 0 1, s.getUser 1 1, s.depth)) = .ok (0, 5, 2) ∧
    ((initStack ⟨[1, 4, 5], [], []⟩).eq 0).map
      (fun s => getReg s.aux_registers 0 0) = .ok (((1 : F) - 4)⁻¹) := by
  refine ⟨eq_spec, by decide, by decide, by rfl⟩

/-- Witness for claim C4: the general EQ characterization applied to the
concrete stack [3,3,4,5] of the stack.rs eq test at step 0. -/
theorem claim_C4_witness :
    StackInv (initStack ⟨[3, 3, 4, 5], [], []⟩) ∧
    2 ≤ (initStack ⟨[3, 3, 4, 5], [], []⟩).depth ∧
    (∃ st2, (initStack ⟨[3, 3, 4, 5], [], []⟩).eq 0 = .ok st2 ∧
      getReg st2.aux_registers 0 0
        = (if (initStack ⟨[3, 3, 4, 5], [], []⟩).getUser 0 0
              = (initStack ⟨[3, 3, 4, 5], [], []⟩).getUser 1 0 then 1
           else ((initStack ⟨[3, 3, 4, 5], [], []⟩).getUser 0 0
              - (initStack ⟨[3, 3, 4, 5], [], []⟩).getUser 1 0)⁻¹) ∧
      st2.getUser 0 1
        = (if (initStack ⟨[3, 3, 4, 5], [], []⟩).getUser 0 0
              = (initStack ⟨[3, 3, 4, 5], [], []⟩).getUser 1 0 then 1 else 0) ∧
      (∀ j, 1 ≤ j → j + 1 < (initStack ⟨[3, 3, 4, 5], [], []⟩).depth →
        st2.getUser j 1 = (initStack ⟨[3, 3, 4, 5], [], []⟩).getUser (j + 1) 0) ∧
      st2.getUser ((initStack ⟨[3, 3, 4, 5], [], []⟩).depth - 1) 1 = 0 ∧
      st2.depth = (initStack ⟨[3, 3, 4, 5], [], []⟩).depth - 1) :=
  ⟨by decide, by decide,
    claim_C4.1 (initStack ⟨[3, 3, 4, 5], [], []⟩) 0 (by decide) (by decide)⟩

/-- Claim C8: shift_left fails with stack underflow unless the depth is
at least pos_count and otherwise decreases the depth by exactly
pos_count, zeroing the shifted-in cells in the next row; shift_right
fails with stack overflow when the new depth would exceed
MAX_USER_STACK_DEPTH and otherwise increases the depth by exactly
pos_count; and depth never exceeds max_depth after either shift or after
any dispatched operation of the execution loop. -/
theorem claim_C8 : ∀ (st : StackTrace) (step start pos : Nat),
    ((st.shift_left step start pos).isOk = true ↔ pos ≤ st.depth) ∧
    (∀ st2, st.shift_left step start pos = .ok st2 →
      st2.depth = st.depth - pos ∧
      (StackInv st → ∀ i, st.depth - pos ≤ i → i < st.depth →
        getReg st2.user_registers i (step + 1) = 0)) ∧
    ((st.shift_right step start pos).isOk = true ↔
      st.depth + pos ≤ MAX_USER_STACK_DEPTH) ∧
    (∀ st2, st.shift_right step start pos = .ok st2 → st2.depth = st.depth + pos) ∧
    (∀ st2, StackInv st → st.shift_left step start pos = .ok st2 →
      st2.depth ≤ st2.max_depth) ∧
    (∀ st2, StackInv st → st.shift_right step start pos = .ok st2 →
      st2.depth ≤ st2.max_depth) ∧
    (∀ (program : List F) (i : Nat) (st2 : StackTrace) (i2 : Nat), StackInv st →
      stepOp program st i = .ok (st2, i2) → st2.depth ≤ st2.max_depth) := by
  intro st step start pos
  refine ⟨shift_left_isOk st step start pos, ?_, shift_right_isOk st step start pos,
    ?_, ?_, ?_, ?_⟩
  · intro st2 he
    refine ⟨(shift_left_ok _ _ _ _ _ he).2.1, fun hInv i h1 h2 => ?_⟩
    obtain ⟨a, b, c⟩ := hInv
    exact shift_left_zero_cells _ _ _ _ _ he i h1 h2 (by omega)
  · intro st2 he
    exact (shift_right_ok _ _ _ _ _ he).2.1
  · intro st2 hInv he
    exact ((shift_left_inv _ _ _ _ _ hInv he).1).1
  · intro st2 hInv he
    exact ((shift_right_inv _ _ _ _ _ hInv he).1).1
  · intro program i st2 i2 hInv he
    exact ((stepOp_inv _ _ _ _ _ hInv he).1).1

/-- Witness for claim C8: the shifts applied to the initial stack of the
S1 scenario (depth 2): a shift_left by one succeeds, leaves depth 1 and
a zeroed top cell, and a shift_right by two preserves the depth bound. -/
theorem claim_C8_witness :
    ((initStack ⟨[1, 0], [], []⟩).shift_left 0 1 1).isOk = true ∧
    ((initStack ⟨[1, 0], [], []⟩).shift_left 0 1 1).map (fun s => s.depth) = .ok 1 ∧
    ((initStack ⟨[1, 0], [], []⟩).shift_left 0 1 1).map
      (fun s => getReg s.user_registers 1 1) = .ok 0 ∧
    ((initStack ⟨[1, 0], [], []⟩).shift_right 0 0 2).map
      (fun s => decide (s.depth ≤ s.max_depth)) = .ok true := by
  obtain ⟨hiff, hok, _, _, _, _, _⟩ := claim_C8 (initStack ⟨[1, 0], [], []⟩) 0 1 1
  obtain ⟨_, _, _, _, _, hinvR, _⟩ := claim_C8 (initStack ⟨[1, 0], [], []⟩) 0 0 2
  have h1 : ((initStack ⟨[1, 0], [], []⟩).shift_left 0 1 1).isOk = true :=
    hiff.mpr (by decide)
  refine ⟨h1, ?_, ?_, ?_⟩
  · cases hE : (initStack ⟨[1, 0], [], []⟩).shift_left 0 1 1 with
    | error e => rw [hE] at h1; simp [Except.isOk, Except.toBool] at h1
    | ok s =>
      obtain ⟨hd, _⟩ := hok s hE
      rw [Except.map, hd]
      rfl
  · cases hE : (initStack ⟨[1, 0], [], []⟩).shift_left 0 1 1 with
    | error e => rw [hE] at h1; simp [Except.isOk, Except.toBool] at h1
    | ok s =>
      obtain ⟨_, hz⟩ := hok s hE
      rw [Except.map]
      show Except.ok (getReg s.user_registers 1 1) = Except.ok 0
      rw [hz (by decide) 1 (by decide) (by decide)]
  · cases hE : (initStack ⟨[1, 0], [], []⟩).shift_right 0 0 2 with
    | error e =>
      exfalso
      have h2 := (claim_C8 (initStack ⟨[1, 0], [], []⟩) 0 0 2).2.2.1.mpr (by decide)
      rw [hE] at h2
      simp [Except.isOk, Except.toBool] at h2
    | ok s =>
      rw [Except.map]
      show Except.ok (decide (s.depth ≤ s.max_depth)) = Except.ok true
      rw [decide_eq_true (hinvR s (by decide) hE)]

/-- Counterexample for claim C3: the two-element program [BEGIN, NOOP]
violates a required length of at least 16, yet the trace builder
executes it successfully, so programs of power-of-two length below 16
are accepted. -/
theorem claim_C3_counterexample :
    (execute c3Program ⟨[], [], []⟩ 2).isOk = true ∧
    c3Program.length = 2 ∧ ¬(16 ≤ c3Program.length) := by
  refine ⟨by decide, by decide, by decide⟩

/-- Claim C3 as amended: the trace builder execute accepts a program
only when its length is a power of two of at least 2 (not 16), its
first element is BEGIN and its last element is NOOP; when any of these
fails, execute stops with the corresponding validation error before
running the loop, and when all hold (together with the power-of-two
extension factor assert placed after them) execute proceeds to the
execution body executeMain. -/
theorem claim_C3_amended : ∀ (program : List F) (inputs : ProgramInputs) (ef : Nat),
    (¬(1 < program.length ∧ isPow2 program.length = true ∧
        program.getD 0 0 = (opcodes.BEGIN : Nat) ∧
        program.getD (program.length - 1) 0 = (opcodes.NOOP : Nat)) →
      (execute program inputs ef = .error msgProgramTooShort ∨
       execute program inputs ef = .error msgProgramPow2 ∨
       execute program inputs ef = .error msgProgramBegin ∨
       execute program inputs ef = .error msgProgramNoop)) ∧
    ((1 < program.length ∧ isPow2 program.length = true ∧
        program.getD 0 0 = (opcodes.BEGIN : Nat) ∧
        program.getD (program.length - 1) 0 = (opcodes.NOOP : Nat)) →
      isPow2 ef = true →
      execute program inputs ef = executeMain program inputs) := by
  intro program inputs ef
  constructor
  · intro hbad
    unfold execute
    by_cases c1 : 1 < program.length
    case neg =>
      rw [if_pos (by exact c1)]
      exact Or.inl rfl
    rw [if_neg (not_not_intro c1)]
    by_cases c2 : isPow2 program.length = true
    case neg =>
      rw [if_pos (by exact c2)]
      exact Or.inr (Or.inl rfl)
    rw [if_neg (not_not_intro c2)]
    by_cases c3 : program.getD 0 0 = (opcodes.BEGIN : Nat)
    case neg =>
      rw [if_pos (by exact c3)]
      exact Or.inr (Or.inr (Or.inl rfl))
    rw [if_neg (not_not_intro c3)]
    by_cases c4 : program.getD (program.length - 1) 0 = (opcodes.NOOP : Nat)
    case neg =>
      rw [if_pos (by exact c4)]
      exact Or.inr (Or.inr (Or.inr rfl))
    exact absurd ⟨c1, c2, c3, c4⟩ hbad
  · rintro ⟨c1, c2, c3, c4⟩ c5
    unfold execute
    rw [if_neg (not_not_intro c1), if_neg (not_not_intro c2), if_neg (not_not_intro c3),
      if_neg (not_not_intro c4), if_neg (not_not_intro c5)]

/-- Witness for claim C3 as amended: [NOOP, NOOP] fails validation (its
first element is not BEGIN), while [BEGIN, NOOP] passes validation and
reaches the execution body. -/
theorem claim_C3_amended_witness :
    (execute [(opcodes.NOOP : F), (opcodes.NOOP : F)] ⟨[], [], []⟩ 2
        = .error msgProgramTooShort ∨
      execute [(opcodes.NOOP : F), (opcodes.NOOP : F)] ⟨[], [], []⟩ 2
        = .error msgProgramPow2 ∨
      execute [(opcodes.NOOP : F), (opcodes.NOOP : F)] ⟨[], [], []⟩ 2
        = .error msgProgramBegin ∨
      execute [(opcodes.NOOP : F), (opcodes.NOOP : F)] ⟨[], [], []⟩ 2
        = .error msgProgramNoop) ∧
    execute c3Program ⟨[], [], []⟩ 2 = executeMain c3Program ⟨[], [], []⟩ :=
  ⟨(claim_C3_amended [(opcodes.NOOP : F), (opcodes.NOOP : F)] ⟨[], [], []⟩ 2).1
      (by decide),
    (claim_C3_amended c3Program ⟨[], [], []⟩ 2).2 (by decide) (by decide)⟩

/-- Counterexample for claim C5: for the program [BEGIN, DROP, DUP4]
with five public inputs, execute returns 11 columns (AUX_WIDTH + 9),
while the user stack depth observed at the steps of the execution is
5, 5, 4, 8 — never 9: a single shift_right from depth 4 past the
watermark 5 advances the watermark by the full position count, so the
user column count exceeds the maximum observed depth. -/
theorem claim_C5_counterexample :
    (execute c5Program c5Inputs 2).map List.length = .ok 11 ∧
    runDepths c5Program c5Program.length c5Program.length 0 (initStack c5Inputs)
      = .ok [5, 5, 4, 8] ∧
    ([5, 5, 4, 8].all (fun d => decide (d ≤ 8))) = true ∧
    (11 : Nat) ≠ AUX_WIDTH + 8 := by
  refine ⟨by decide, by decide, by decide, by decide⟩

/-- Claim C5 as amended: the column set returned by execute consists of
exactly AUX_WIDTH auxiliary columns followed by a number of user-stack
columns equal to the final value of the max_depth watermark, which
bounds (but, as the counterexample shows, can strictly exceed) every
user-stack depth observed during execution; stack columns are grown on
demand when a shift_right pushes the watermark past the current width,
and the new columns are zero-filled. -/
theorem claim_C5_amended :
    (∀ (program : List F) (inputs : ProgramInputs) (ef : Nat) (cols : List Col),
      execute program inputs ef = .ok cols →
      ∃ st2, runLoop program program.length program.length 0 (initStack inputs) = .ok st2 ∧
        cols = st2.aux_registers ++ st2.user_registers.take st2.max_depth ∧
        st2.aux_registers.length = AUX_WIDTH ∧
        cols.length = AUX_WIDTH + st2.max_depth ∧
        st2.depth ≤ st2.max_depth ∧
        (∀ ds, runDepths program program.length program.length 0 (initStack inputs)
            = .ok ds → ∀ d ∈ ds, d ≤ st2.max_depth)) ∧
    (∀ (st : StackTrace) (step start pos : Nat) (st2 : StackTrace),
      st.shift_right step start pos = .ok st2 →
      st2.user_registers.length = max st.user_registers.length st2.max_depth ∧
      (∀ c r, st.user_registers.length ≤ c → r ≠ step + 1 →
        getReg st2.user_registers c r = 0)) := by
  constructor
  · intro program inputs ef cols h
    have hm := execute_ok _ _ _ _ h
    unfold executeMain at hm
    cases hrl : runLoop program program.length program.length 0 (initStack inputs) with
    | error e => rw [hrl] at hm; exact Except.noConfusion hm
    | ok st2 =>
      rw [hrl] at hm
      have hm2 : (if st2.secret_inputs_a.length = 0 ∧ st2.secret_inputs_b.length = 0 then
            Except.ok (st2.aux_registers ++ List.take st2.max_depth st2.user_registers)
          else Except.error msgExtraSecretInputs) = Except.ok cols := hm
      by_cases hsec : st2.secret_inputs_a.length = 0 ∧ st2.secret_inputs_b.length = 0
      · rw [if_pos hsec] at hm2
        injection hm2 with h3
        subst h3
        obtain ⟨hinv2, _⟩ := runLoop_inv program program.length program.length 0 _ st2
          (initStack_inv inputs) hrl
        obtain ⟨g1, g2, g3⟩ := hinv2
        refine ⟨st2, rfl, rfl, g3, ?_, g1, ?_⟩
        · rw [List.length_append, List.length_take, g3]
          omega
        · intro ds hds d hdm
          exact runDepths_bounded program program.length program.length 0 _ st2 ds
            (initStack_inv inputs) hrl hds d hdm
      · rw [if_neg hsec] at hm2; exact Except.noConfusion hm2
  · intro st step start pos st2 he
    obtain ⟨_, _, _, _, _, _, hu⟩ := shift_right_ok _ _ _ _ _ he
    exact ⟨hu, shift_right_new_cols _ _ _ _ _ he⟩

/-- Witness for claim C5 as amended: the counterexample program yields
2 + 9 columns with final watermark 9, and a concrete shift_right jump
from depth 5 grows the registers to the watermark with the new column
zero-filled. -/
theorem claim_C5_amended_witness :
    (execute c5Program c5Inputs 2).map List.length = .ok (AUX_WIDTH + 9) ∧
    ((initStack ⟨[1, 1, 1, 1, 1], [], []⟩).shift_right 0 0 4).map
      (fun s => (s.user_registers.length, getReg s.user_registers 8 0)) = .ok (9, 0) := by
  constructor
  · cases hE : execute c5Program c5Inputs 2 with
    | error e =>
      have hq : (execute c5Program c5Inputs 2).map List.length = .ok 11 := by decide
      rw [hE] at hq
      exact Except.noConfusion hq
    | ok cols =>
      obtain ⟨st2, hrl, _, _, hlen, _, _⟩ := claim_C5_amended.1 c5Program c5Inputs 2 cols hE
      have hq : (runLoop c5Program c5Program.length c5Program.length 0
          (initStack c5Inputs)).map (fun s => s.max_depth) = .ok 9 := by decide
      rw [hrl] at hq
      rw [Except.map] at hq
      injection hq with hq2
      rw [Except.map]
      show Except.ok cols.length = _
      rw [hlen, hq2]
  · cases hE : (initStack ⟨[1, 1, 1, 1, 1], [], []⟩).shift_right 0 0 4 with
    | error e =>
      have hq : ((initStack ⟨[1, 1, 1, 1, 1], [], []⟩).shift_right 0 0 4).isOk = true := by
        decide
      rw [hE] at hq
      simp [Except.isOk, Except.toBool] at hq
    | ok s =>
      obtain ⟨hu, hz⟩ := claim_C5_amended.2 (initStack ⟨[1, 1, 1, 1, 1], [], []⟩) 0 0 4 s hE
      have hmax : ((initStack ⟨[1, 1, 1, 1, 1], [], []⟩).shift_right 0 0 4).map
          (fun s2 => s2.max_depth) = .ok 9 := by decide
      rw [hE, Except.map] at hmax
      injection hmax with hmax2
      rw [Except.map]
      show Except.ok (s.user_registers.length, getReg s.user_registers 8 0) = _
      rw [hu, hmax2, hz 8 0 (by decide) (by decide)]
      decide

-- Processor entry points ------------------------------------------------------------------------

theorem set_ne_of_ne (l : List F) (j : Nat) (v : F) (hj : j < l.length)
    (hv : v ≠ l.getD j 0) : ¬(l = l.set j v) := by
  intro hcon
  apply hv
  have hget : (l.set j v).getD j 0 = v := by
    rw [List.getD_eq_getElem _ _ (by simpa using hj), List.getElem_set_self]
  rw [← hget, ← hcon]

theorem processorExecute_ok (program publics : List F) (n : Nat) (out dg : List F)
    (pf : ProofObj) (h : processorExecute program publics n = .ok (out, dg, pf)) :
    dg = spongeDigest program.dropLast ∧ pf = ⟨dg, publics, out⟩ := by
  unfold processorExecute at h
  cases hrl : runLoop program program.length program.length 0
      (initStack ⟨publics, [], []⟩) with
  | error e => rw [hrl] at h; exact Except.noConfusion h
  | ok st =>
    rw [hrl] at h
    injection h with h3
    injection h3 with hA h4
    injection h4 with hB hC
    subst hA hB hC
    exact ⟨rfl, rfl⟩

/-- Claim C1: for every program and public inputs on which the prover
completes, the digest is the sponge hash of the program excluding its
terminal NOOP slot and verify accepts the produced proof against the
digest, the public inputs and the outputs; for the S1 scenario the
outputs are [3] and verify returns Ok(true). -/
theorem claim_C1 :
    (∀ (program publics : List F) (n : Nat) (out dg : List F) (pf : ProofObj),
      processorExecute program publics n = .ok (out, dg, pf) →
      dg = spongeDigest program.dropLast ∧ verify dg publics out pf = .ok true) ∧
    processorExecute s1Program s1Inputs 1
      = .ok ([3], spongeDigest s1Program.dropLast,
          ⟨spongeDigest s1Program.dropLast, s1Inputs, [3]⟩) ∧
    verify (spongeDigest s1Program.dropLast) s1Inputs [3]
      ⟨spongeDigest s1Program.dropLast, s1Inputs, [3]⟩ = .ok true := by
  refine ⟨?_, by decide, by decide⟩
  intro program publics n out dg pf h
  obtain ⟨hdg, hpf⟩ := processorExecute_ok program publics n out dg pf h
  subst hpf
  exact ⟨hdg, by unfold verify; rw [if_pos ⟨rfl, rfl, rfl⟩]⟩

/-- Witness for claim C1: the general completeness statement applied to
the S1 program with public inputs [1, 0] and one output. -/
theorem claim_C1_witness :
    spongeDigest s1Program.dropLast = spongeDigest s1Program.dropLast ∧
    verify (spongeDigest s1Program.dropLast) s1Inputs [3]
      ⟨spongeDigest s1Program.dropLast, s1Inputs, [3]⟩ = .ok true :=
  claim_C1.1 s1Program s1Inputs 1 [3] (spongeDigest s1Program.dropLast)
    ⟨spongeDigest s1Program.dropLast, s1Inputs, [3]⟩ (by decide)

set_option maxRecDepth 10000 in
/-- Claim C2: for an honestly produced proof, changing any single
element of the public inputs, the claimed outputs or the program digest
makes verify return the error whose message begins with
"verification of low-degree proof failed"; for the S1 scenario all
three tamper cases return exactly the depth-0 message of the tests. -/
theorem claim_C2 :
    (∀ (program publics : List F) (n : Nat) (out dg : List F) (pf : ProofObj),
      processorExecute program publics n = .ok (out, dg, pf) →
      ((∀ j v, j < publics.length → v ≠ publics.getD j 0 →
          verify dg (publics.set j v) out pf = .error msgVerifyFailedDepth0) ∧
       (∀ j v, j < out.length → v ≠ out.getD j 0 →
          verify dg publics (out.set j v) pf = .error msgVerifyFailedDepth0) ∧
       (∀ j v, j < dg.length → v ≠ dg.getD j 0 →
          verify (dg.set j v) publics out pf = .error msgVerifyFailedDepth0))) ∧
    msgVerifyFailedDepth0
      = msgVerifyFailedStart ++ ": evaluations did not match column value at depth 0" ∧
    verify (spongeDigest s1Program.dropLast) [1, 1] [3]
      ⟨spongeDigest s1Program.dropLast, s1Inputs, [3]⟩ = .error msgVerifyFailedDepth0 ∧
    verify (spongeDigest s1Program.dropLast) s1Inputs [5]
      ⟨spongeDigest s1Program.dropLast, s1Inputs, [3]⟩ = .error msgVerifyFailedDepth0 ∧
    verify ((spongeDigest s1Program.dropLast).set 0 1) s1Inputs [3]
      ⟨spongeDigest s1Program.dropLast, s1Inputs, [3]⟩ = .error msgVerifyFailedDepth0 := by
  refine ⟨?_, by decide, by decide, by decide, by decide⟩
  intro program publics n out dg pf h
  obtain ⟨hdg, hpf⟩ := processorExecute_ok program publics n out dg pf h
  subst hpf
  refine ⟨?_, ?_, ?_⟩
  · intro j v hj hv
    unfold verify
    rw [if_neg (fun hcon => set_ne_of_ne publics j v hj hv hcon.2.1)]
  · intro j v hj hv
    unfold verify
    rw [if_neg (fun hcon => set_ne_of_ne out j v hj hv hcon.2.2)]
  · intro j v hj hv
    unfold verify
    rw [if_neg (fun hcon => set_ne_of_ne dg j v hj hv hcon.1)]

/-- Witness for claim C2: tampering with the first public input of the
S1 proof (setting it to 5) is rejected with the depth-0 message. -/
theorem claim_C2_witness :
    (0 < s1Inputs.length ∧ (5 : F) ≠ s1Inputs.getD 0 0) ∧
    verify (spongeDigest s1Program.dropLast) (s1Inputs.set 0 5) [3]
      ⟨spongeDigest s1Program.dropLast, s1Inputs, [3]⟩ = .error msgVerifyFailedDepth0 := by
  refine ⟨⟨by decide, by decide⟩, ?_⟩
  exact (claim_C2.1 s1Program s1Inputs 1 [3] (spongeDigest s1Program.dropLast)
    ⟨spongeDigest s1Program.dropLast, s1Inputs, [3]⟩ (by decide)).1 0 5 (by decide) (by decide)
